import Mathlib

set_option maxRecDepth 2000
set_option maxHeartbeats 1000000

/-!
Shallow embedding of `read_cdc.c` (VibrationSensor V2S200DZ host-side reader).

The program reads 4-byte words from a serial device into a 1253-word frame
buffer, synchronizes on the sentinels `USB_SOF`/`USB_EOF`, validates frame
length and inter-frame timestamp interval, and emits one CSV row per payload
sample with interpolated microsecond timestamps.

The embedding below models one iteration of the `while(1)` loop in `main` as a
function of the synchronizer state and the word chunk delivered by `read`,
and a whole execution as a fold over the stream of words together with a
schedule of read sizes (the adversarial partition of the stream into reads).
Machine arithmetic is modelled on `Nat`/`Int` with explicit `% 2^32` or
`% 2^64` where the C code computes in `uint32_t`/`uint64_t`.
-/

namespace ReadCdc

/-- `#define FRAME_TOTAL_INTS 1253` (SOF + timestamp + 1250 data + EOF). -/
def FRAME_TOTAL_INTS : Nat := 1253

/-- `#define N_FRAME_DATA 1250`. -/
def N_FRAME_DATA : Nat := 1250

/-- `#define FRAME_INTERVAL 100` (ms). -/
def FRAME_INTERVAL : Nat := 100

/-- `#define USB_SOF 0x55555555`, as the `int32_t` value stored in the buffer. -/
def USB_SOF : Int := 0x55555555

/-- `(int32_t)USB_EOF` where `#define USB_EOF 0xAAAAAAAA`: two's complement
reinterpretation of `0xAAAAAAAA` as a signed 32-bit value. -/
def USB_EOF_I32 : Int := -1431655766

/-- `EXIT_FAILURE`. -/
def EXIT_FAILURE : Nat := 1

/-- Reinterpretation of an `int32_t` value as `uint32_t` (the C cast
`(uint32_t)w` for `w` in `[-2^31, 2^31)`). -/
def toU32 (w : Int) : Nat := (w % (2 ^ 32 : Int)).toNat

/-- The per-sample timestamp increment
`(FRAME_INTERVAL * 1000) / (FRAME_TOTAL_INTS - 3)` from line 205. -/
def TS_INCR : Nat := FRAME_INTERVAL * 1000 / (FRAME_TOTAL_INTS - 3)

/-- The two states of the synchronizer (`STATE_t`). -/
inductive STATE_t where
  | STATE_FIND_SOF
  | STATE_FIND_EOF
deriving DecidableEq

/-- The mutable state of the `while(1)` loop in `main`: the frame buffer, the
fill offset `read_ptr - frame_buff`, the state-machine state, and the static
`last_frame_timestamp` (as its `uint32_t` value, `0` meaning "unset"). -/
structure SyncState where
  frame_buff : List Int
  pos : Nat
  state : STATE_t
  last_frame_timestamp : Nat
deriving DecidableEq

/-- Observable output of the loop: CSV data rows (to `fcsv`) and diagnostics
(to `stderr`). -/
inductive Event where
  | csvRow (ts : Nat) (v : Int)
  | warnFrameSize
  | warnInterval
  | errFrameLength
  | errRead
deriving DecidableEq

/-- Initial state: `calloc`ed buffer, `read_ptr = frame_buff`,
`state = STATE_FIND_SOF`, `last_frame_timestamp = 0`. -/
def initState : SyncState :=
  { frame_buff := List.replicate FRAME_TOTAL_INTS 0
    pos := 0
    state := STATE_t.STATE_FIND_SOF
    last_frame_timestamp := 0 }

/-- `read` writing `chunk` into the buffer at word offset `p`. -/
def writeChunk (buf : List Int) (p : Nat) (chunk : List Int) : List Int :=
  buf.take p ++ chunk ++ buf.drop (p + chunk.length)

/-- The CSV-emission loop of lines 202-206:
`for(i = 2; i < FRAME_TOTAL_INTS - 1; i++)` printing `frame_buff[i]` with the
running `uint64_t` timestamp, incremented by `TS_INCR` each iteration.
`count` is the number of remaining iterations. -/
def printData (buf : List Int) : Nat → Nat → Nat → List Event
  | _, _, 0 => []
  | ts, i, count + 1 =>
      Event.csvRow ts (buf.getD i 0) ::
        printData buf ((ts + TS_INCR) % (2 ^ 64)) (i + 1) count

/-- Frame acceptance (lines 184-206), entered when the word at offset `p`
equals `USB_EOF_I32`: the size-mismatch warning, the interval check against
`last`, and the CSV rows.  Returns the emitted events and the new
`last_frame_timestamp` (the frame timestamp `(uint32_t)frame_buff[1]`). -/
def emitFrame (buf : List Int) (p : Nat) (last : Nat) : List Event × Nat :=
  let sizeW := if p + 1 ≠ FRAME_TOTAL_INTS then [Event.warnFrameSize] else []
  let ts := toU32 (buf.getD 1 0)
  let intW :=
    if last ≠ 0 ∧ (ts + 2 ^ 32 - last) % (2 ^ 32) ≠ FRAME_INTERVAL then
      [Event.warnInterval]
    else []
  let start := ts * 1000 % (2 ^ 32)
  (sizeW ++ intW ++ printData buf start 2 N_FRAME_DATA, ts)

/-- The `STATE_FIND_EOF` block (lines 167-211), executed after a read of `n`
words (`n ≥ 1`): `read_ptr += n-1`, inspect the last word written, and either
keep accumulating, take the (unreachable) length-overrun branch, or accept the
frame. -/
def findEOFBody (s : SyncState) (n : Nat) : SyncState × List Event :=
  let p := s.pos + n - 1
  if s.frame_buff.getD p 0 ≠ USB_EOF_I32 then
    if p ≥ FRAME_TOTAL_INTS then
      ({ s with pos := 0, state := STATE_t.STATE_FIND_SOF },
        [Event.errFrameLength])
    else
      ({ s with pos := p + 1 }, [])
  else
    let r := emitFrame s.frame_buff p s.last_frame_timestamp
    ({ s with
        pos := 0
        state := STATE_t.STATE_FIND_SOF
        last_frame_timestamp := r.2 }, r.1)

/-- One iteration of the `while(1)` loop after a successful `read` delivering
`chunk` at the current position.  `chunk = []` is the `n == 0`
sleep-and-retry path. -/
def stepChunk (s : SyncState) (chunk : List Int) : SyncState × List Event :=
  if chunk.length = 0 then (s, [])
  else
    let buf := writeChunk s.frame_buff s.pos chunk
    match s.state with
    | STATE_t.STATE_FIND_SOF =>
        if buf.getD s.pos 0 ≠ USB_SOF then ({ s with frame_buff := buf }, [])
        else
          findEOFBody
            { s with frame_buff := buf, state := STATE_t.STATE_FIND_EOF }
            chunk.length
    | STATE_t.STATE_FIND_EOF =>
        findEOFBody { s with frame_buff := buf } chunk.length

/-- Execution of the loop against a device holding `stream` (queued words not
yet delivered) under a schedule of proposed read sizes: each `read` call
requests `(FRAME_TOTAL_INTS - pos)` words and the device delivers
`min proposal (min requested available)` of them.  Returns the final state,
the undelivered words, and the emitted events. -/
def run (s : SyncState) (stream : List Int) :
    List Nat → SyncState × List Int × List Event
  | [] => (s, stream, [])
  | k :: rest =>
      let n := min k (min (FRAME_TOTAL_INTS - s.pos) stream.length)
      let r := stepChunk s (stream.take n)
      let r2 := run r.1 (stream.drop n) rest
      (r2.1, r2.2.1, r.2 ++ r2.2.2)

/-- Result of a `read` call: an error (`n < 0`) or `k` words proposed. -/
inductive ReadOp where
  | rerr
  | rok (k : Nat)
deriving DecidableEq

/-- Resources released and exit code on the fatal-read-error path
(lines 146-153). -/
structure FatalExit where
  freed_frame_buff : Bool
  closed_tty : Bool
  closed_fcsv : Bool
  code : Nat
deriving DecidableEq

/-- Lines 148-152: `free(frame_buff); close(tty_fd); fclose(fcsv);
return EXIT_FAILURE;`. -/
def readErrorExit : FatalExit :=
  { freed_frame_buff := true
    closed_tty := true
    closed_fcsv := true
    code := EXIT_FAILURE }

/-- Execution like `run`, over read results that may also be errors; a read
error stops the loop immediately with the diagnostic of line 148 and the
cleanup of lines 149-152. -/
def runE (s : SyncState) (stream : List Int) :
    List ReadOp → SyncState × List Int × List Event × Option FatalExit
  | [] => (s, stream, [], none)
  | ReadOp.rerr :: _ => (s, stream, [Event.errRead], some readErrorExit)
  | ReadOp.rok k :: rest =>
      let n := min k (min (FRAME_TOTAL_INTS - s.pos) stream.length)
      let r := stepChunk s (stream.take n)
      let r2 := runE r.1 (stream.drop n) rest
      (r2.1, r2.2.1, r.2 ++ r2.2.2.1, r2.2.2.2)

/-- Effects of `handle_signal` (lines 35-43): flush and close the CSV file if
open, then `exit(128 + sig)`. -/
structure SignalExit where
  flushed : Bool
  closed : Bool
  code : Nat
deriving DecidableEq

/-- `handle_signal(sig)` with `fcsvOpen` recording whether `fcsv` is non-NULL
(it always is while the main loop runs). -/
def handle_signal (sig : Nat) (fcsvOpen : Bool) : SignalExit :=
  { flushed := fcsvOpen, closed := fcsvOpen, code := 128 + sig }

/-- A frame on the wire: `SOF`, timestamp word, 1250 payload words, `EOF`. -/
def mkFrame (tsW : Int) (payload : List Int) : List Int :=
  USB_SOF :: tsW :: payload ++ [USB_EOF_I32]

/-- Well-formedness of a frame body: exactly 1250 payload words and no
sentinel value among the timestamp word or the payload. -/
def wellFormedFrame (tsW : Int) (payload : List Int) : Prop :=
  payload.length = N_FRAME_DATA ∧ tsW ≠ USB_SOF ∧ tsW ≠ USB_EOF_I32 ∧
    ∀ v ∈ payload, v ≠ USB_SOF ∧ v ≠ USB_EOF_I32

instance (tsW : Int) (payload : List Int) :
    Decidable (wellFormedFrame tsW payload) := by
  unfold wellFormedFrame; exact inferInstance

/-- The CSV rows the code emits for an accepted well-formed frame: sample `i`
carries timestamp `(T*1000 mod 2^32) + 80*i` where `T` is the `uint32_t`
frame timestamp. -/
def expectedRows (tsW : Int) (payload : List Int) : List Event :=
  (List.range N_FRAME_DATA).map fun i =>
    Event.csvRow (toU32 tsW * 1000 % (2 ^ 32) + TS_INCR * i) (payload.getD i 0)

/-- Events emitted on accepting one well-formed frame when the retained
timestamp is `last`. -/
def frameEvents (last : Nat) (tsW : Int) (payload : List Int) : List Event :=
  (if last ≠ 0 ∧ (toU32 tsW + 2 ^ 32 - last) % (2 ^ 32) ≠ FRAME_INTERVAL then
      [Event.warnInterval]
    else []) ++ expectedRows tsW payload

/-- Concatenation of frames on the wire. -/
def framesStream : List (Int × List Int) → List Int
  | [] => []
  | fp :: fs => mkFrame fp.1 fp.2 ++ framesStream fs

/-- Events of a sequence of accepted frames, threading the retained
timestamp. -/
def framesEvents (last : Nat) : List (Int × List Int) → List Event
  | [] => []
  | fp :: fs => frameEvents last fp.1 fp.2 ++ framesEvents (toU32 fp.1) fs

/-- The retained timestamp after a sequence of accepted frames. -/
def framesLastTs (last : Nat) : List (Int × List Int) → Nat
  | [] => last
  | fp :: fs => framesLastTs (toU32 fp.1) fs

/-- Recognizer for CSV data rows among events. -/
def isCsvRow : Event → Bool
  | Event.csvRow _ _ => true
  | _ => false

/-! ### Generic list lemmas -/

theorem getD_take_of_lt {α : Type} (l : List α) (m i : Nat) (h : i < m)
    (d : α) : (l.take m).getD i d = l.getD i d := by
  induction l generalizing m i with
  | nil => simp
  | cons a t ih =>
    cases m with
    | zero => omega
    | succ m' =>
      cases i with
      | zero => simp
      | succ i' =>
        simpa using ih m' i' (by omega)

theorem getD_eq_of_take_eq {α : Type} {l₁ l₂ : List α} {m : Nat}
    (h : l₁.take m = l₂.take m) {i : Nat} (hi : i < m) (d : α) :
    l₁.getD i d = l₂.getD i d := by
  rw [← getD_take_of_lt l₁ m i hi, h, getD_take_of_lt l₂ m i hi]

theorem getD_mem_of_lt {α : Type} (l : List α) (i : Nat) (h : i < l.length)
    (d : α) : l.getD i d ∈ l := by
  rw [List.getD_eq_getElem _ _ h]
  exact List.getElem_mem h

theorem length_writeChunk (buf chunk : List Int) (p : Nat)
    (h : p + chunk.length ≤ buf.length) :
    (writeChunk buf p chunk).length = buf.length := by
  simp only [writeChunk, List.length_append, List.length_take,
    List.length_drop]
  omega

theorem take_writeChunk (buf chunk : List Int) (p : Nat)
    (h : p ≤ buf.length) :
    (writeChunk buf p chunk).take (p + chunk.length) =
      buf.take p ++ chunk := by
  simp only [writeChunk]
  rw [List.take_append_eq_append_take]
  have hlen : (buf.take p ++ chunk).length = p + chunk.length := by
    simp only [List.length_append, List.length_take]
    omega
  rw [List.take_of_length_le (le_of_eq hlen), hlen, Nat.sub_self,
    List.take_zero, List.append_nil]

/-! ### Frame shape lemmas -/

theorem TS_INCR_eq : TS_INCR = 80 := rfl

theorem length_mkFrame (t : Int) (pl : List Int)
    (h : pl.length = N_FRAME_DATA) :
    (mkFrame t pl).length = FRAME_TOTAL_INTS := by
  simp [mkFrame, h, N_FRAME_DATA, FRAME_TOTAL_INTS]

theorem mkFrame_getD_zero (t : Int) (pl : List Int) :
    (mkFrame t pl).getD 0 0 = USB_SOF := rfl

theorem mkFrame_getD_one (t : Int) (pl : List Int) :
    (mkFrame t pl).getD 1 0 = t := rfl

theorem mkFrame_getD_payload (t : Int) (pl : List Int) (i : Nat)
    (hi : i < pl.length) :
    (mkFrame t pl).getD (2 + i) 0 = pl.getD i 0 := by
  rw [show (2 + i) = i + 2 from by omega]
  show (pl ++ [USB_EOF_I32]).getD i 0 = pl.getD i 0
  exact List.getD_append _ _ _ _ hi

theorem mkFrame_getD_last (t : Int) (pl : List Int)
    (h : pl.length = N_FRAME_DATA) :
    (mkFrame t pl).getD 1252 0 = USB_EOF_I32 := by
  show (pl ++ [USB_EOF_I32]).getD 1250 0 = USB_EOF_I32
  have h' : pl.length ≤ 1250 := by
    simp only [N_FRAME_DATA] at h
    omega
  have h'' : pl.length = 1250 := by
    simp only [N_FRAME_DATA] at h
    omega
  rw [List.getD_append_right _ _ _ _ h', h'']
  rfl

theorem mkFrame_getD_ne_eof (t : Int) (pl : List Int)
    (wf : wellFormedFrame t pl) (j : Nat)
    (hj : j ≤ FRAME_TOTAL_INTS - 2) :
    (mkFrame t pl).getD j 0 ≠ USB_EOF_I32 := by
  obtain ⟨hlen, _, ht, hpl⟩ := wf
  match j with
  | 0 => rw [mkFrame_getD_zero]; decide
  | 1 => rw [mkFrame_getD_one]; exact ht
  | (i + 2) =>
    have hi : i < pl.length := by
      simp only [FRAME_TOTAL_INTS] at hj
      simp only [N_FRAME_DATA] at hlen
      omega
    rw [show i + 2 = 2 + i from by omega, mkFrame_getD_payload t pl i hi]
    exact (hpl _ (getD_mem_of_lt pl i hi 0)).2

/-! ### The CSV emission loop -/

theorem printData_length (buf : List Int) :
    ∀ (count ts i : Nat), (printData buf ts i count).length = count := by
  intro count
  induction count with
  | zero => intro ts i; rfl
  | succ c ih =>
    intro ts i
    simp only [printData, List.length_cons, ih]

theorem printData_spec (buf : List Int) :
    ∀ (count i ts : Nat), ts + TS_INCR * count < 2 ^ 64 →
      printData buf ts i count =
        (List.range count).map fun j =>
          Event.csvRow (ts + TS_INCR * j) (buf.getD (i + j) 0) := by
  intro count
  induction count with
  | zero => intro i ts _; rfl
  | succ c ih =>
    intro i ts hts
    have h80 : TS_INCR = 80 := rfl
    have hmod : (ts + TS_INCR) % 2 ^ 64 = ts + TS_INCR := by
      apply Nat.mod_eq_of_lt
      have : (2 : Nat) ^ 64 = 18446744073709551616 := by norm_num
      rw [h80] at hts ⊢
      omega
    have hts' : (ts + TS_INCR) + TS_INCR * c < 2 ^ 64 := by
      rw [h80] at hts ⊢
      omega
    simp only [printData, hmod, ih (i + 1) (ts + TS_INCR) hts',
      List.range_succ_eq_map, List.map_cons, List.map_map]
    congr 1
    apply List.map_congr_left
    intro j _
    simp only [Function.comp_apply, Nat.succ_eq_add_one]
    rw [show ts + TS_INCR + TS_INCR * j = ts + TS_INCR * (j + 1) from by
        rw [h80]; ring,
      show i + 1 + j = i + (j + 1) from by omega]

theorem emitFrame_mkFrame (t : Int) (pl : List Int) (last : Nat)
    (h : pl.length = N_FRAME_DATA) :
    emitFrame (mkFrame t pl) 1252 last = (frameEvents last t pl, toU32 t) := by
  have hrows : printData (mkFrame t pl) (toU32 t * 1000 % 2 ^ 32) 2
      N_FRAME_DATA = expectedRows t pl := by
    have hbound :
        toU32 t * 1000 % 2 ^ 32 + TS_INCR * N_FRAME_DATA < 2 ^ 64 := by
      have h1 : toU32 t * 1000 % 2 ^ 32 < 2 ^ 32 :=
        Nat.mod_lt _ (by norm_num)
      have h32 : (2 : Nat) ^ 32 = 4294967296 := by norm_num
      have h64 : (2 : Nat) ^ 64 = 18446744073709551616 := by norm_num
      have hti : TS_INCR * N_FRAME_DATA = 100000 := by decide
      omega
    rw [printData_spec _ _ _ _ hbound, expectedRows]
    apply List.map_congr_left
    intro j hj
    rw [List.mem_range] at hj
    have hj' : j < pl.length := by
      simp only [N_FRAME_DATA] at h hj
      omega
    rw [mkFrame_getD_payload t pl j hj']
  simp only [emitFrame, mkFrame_getD_one]
  rw [if_neg (show ¬(1252 + 1 ≠ FRAME_TOTAL_INTS) from by
    simp [FRAME_TOTAL_INTS])]
  rw [hrows]
  simp [frameEvents]

/-! ### Single-step lemmas while receiving a well-formed frame -/

theorem findEOFBody_frame_partial (t : Int) (pl : List Int)
    (wf : wellFormedFrame t pl) (buf' : List Int) (pos n last : Nat)
    (htake : buf'.take (pos + n) = (mkFrame t pl).take (pos + n))
    (hn : 1 ≤ n) (hlt : pos + n < FRAME_TOTAL_INTS) :
    findEOFBody ⟨buf', pos, STATE_t.STATE_FIND_EOF, last⟩ n =
      (⟨buf', pos + n, STATE_t.STATE_FIND_EOF, last⟩, []) := by
  have hp : pos + n - 1 < pos + n := by omega
  have hgd : buf'.getD (pos + n - 1) 0 = (mkFrame t pl).getD (pos + n - 1) 0 :=
    getD_eq_of_take_eq htake hp 0
  have hne : buf'.getD (pos + n - 1) 0 ≠ USB_EOF_I32 := by
    rw [hgd]
    exact mkFrame_getD_ne_eof t pl wf _
      (by simp only [FRAME_TOTAL_INTS] at hlt ⊢; omega)
  simp only [findEOFBody]
  rw [if_pos hne, if_neg (show ¬(pos + n - 1 ≥ FRAME_TOTAL_INTS) from by
    simp only [FRAME_TOTAL_INTS] at hlt ⊢; omega)]
  have hpp : pos + n - 1 + 1 = pos + n := by omega
  simp [hpp]

theorem findEOFBody_frame_complete (t : Int) (pl : List Int)
    (wf : wellFormedFrame t pl) (buf' : List Int) (pos n last : Nat)
    (hlen' : buf'.length = FRAME_TOTAL_INTS)
    (htake : buf'.take (pos + n) = (mkFrame t pl).take (pos + n))
    (hn : 1 ≤ n) (heq : pos + n = FRAME_TOTAL_INTS) :
    findEOFBody ⟨buf', pos, STATE_t.STATE_FIND_EOF, last⟩ n =
      (⟨mkFrame t pl, 0, STATE_t.STATE_FIND_SOF, toU32 t⟩,
        frameEvents last t pl) := by
  have hplen := wf.1
  have hflen := length_mkFrame t pl hplen
  have hbe : buf' = mkFrame t pl := by
    have h1 : buf'.take (pos + n) = buf' := by
      rw [heq, ← hlen']
      exact List.take_length _
    have h2 : (mkFrame t pl).take (pos + n) = mkFrame t pl := by
      rw [heq, ← hflen]
      exact List.take_length _
    rw [← h1, htake, h2]
  have hp1252 : pos + n - 1 = 1252 := by
    simp only [FRAME_TOTAL_INTS] at heq
    omega
  subst hbe
  simp only [findEOFBody]
  rw [if_neg (show ¬((mkFrame t pl).getD (pos + n - 1) 0 ≠ USB_EOF_I32) from by
    rw [hp1252, mkFrame_getD_last t pl hplen]; simp)]
  rw [hp1252, emitFrame_mkFrame t pl last hplen]

theorem stepChunk_frame_partial (t : Int) (pl : List Int)
    (wf : wellFormedFrame t pl) (s : SyncState)
    (hbuf : s.frame_buff.length = FRAME_TOTAL_INTS)
    (hcfg : (s.state = STATE_t.STATE_FIND_SOF ∧ s.pos = 0) ∨
      (s.state = STATE_t.STATE_FIND_EOF ∧ 1 ≤ s.pos ∧
        s.frame_buff.take s.pos = (mkFrame t pl).take s.pos))
    (n : Nat) (hn : 1 ≤ n) (hlt : s.pos + n < FRAME_TOTAL_INTS) :
    ∃ buf' : List Int,
      stepChunk s (((mkFrame t pl).drop s.pos).take n) =
        (⟨buf', s.pos + n, STATE_t.STATE_FIND_EOF,
          s.last_frame_timestamp⟩, []) ∧
      buf'.length = FRAME_TOTAL_INTS ∧
      buf'.take (s.pos + n) = (mkFrame t pl).take (s.pos + n) := by
  obtain ⟨buf, pos, st, last⟩ := s
  simp only at hbuf hcfg hlt ⊢
  have hplen := wf.1
  have hflen := length_mkFrame t pl hplen
  have htkpos : buf.take pos = (mkFrame t pl).take pos := by
    rcases hcfg with ⟨_, h0⟩ | ⟨_, _, h⟩
    · simp [h0]
    · exact h
  set chunk := ((mkFrame t pl).drop pos).take n with hchunkdef
  have hchunklen : chunk.length = n := by
    simp only [hchunkdef, List.length_take, List.length_drop, hflen]
    omega
  have hwlen : (writeChunk buf pos chunk).length = FRAME_TOTAL_INTS := by
    rw [length_writeChunk buf chunk pos (by omega), hbuf]
  have hwtake : (writeChunk buf pos chunk).take (pos + n) =
      (mkFrame t pl).take (pos + n) := by
    have := take_writeChunk buf chunk pos (by omega)
    rw [hchunklen] at this
    rw [this, htkpos, hchunkdef, ← List.take_add]
  refine ⟨writeChunk buf pos chunk, ?_, hwlen, hwtake⟩
  simp only [stepChunk, hchunklen]
  rw [if_neg (by omega)]
  rcases hcfg with ⟨hst, h0⟩ | ⟨hst, hpos1, _⟩
  · subst hst
    subst h0
    simp only []
    rw [if_neg (show ¬((writeChunk buf 0 chunk).getD 0 0 ≠ USB_SOF) from by
      have : (writeChunk buf 0 chunk).getD 0 0 = (mkFrame t pl).getD 0 0 :=
        getD_eq_of_take_eq (by simpa using hwtake) (by omega) 0
      rw [this, mkFrame_getD_zero]
      simp)]
    have := findEOFBody_frame_partial t pl wf (writeChunk buf 0 chunk) 0 n
      last (by simpa using hwtake) hn (by simpa using hlt)
    simpa using this
  · subst hst
    simp only []
    exact findEOFBody_frame_partial t pl wf (writeChunk buf pos chunk) pos n
      last hwtake hn hlt

theorem stepChunk_frame_complete (t : Int) (pl : List Int)
    (wf : wellFormedFrame t pl) (s : SyncState)
    (hbuf : s.frame_buff.length = FRAME_TOTAL_INTS)
    (hcfg : (s.state = STATE_t.STATE_FIND_SOF ∧ s.pos = 0) ∨
      (s.state = STATE_t.STATE_FIND_EOF ∧ 1 ≤ s.pos ∧
        s.frame_buff.take s.pos = (mkFrame t pl).take s.pos))
    (n : Nat) (hn : 1 ≤ n) (heq : s.pos + n = FRAME_TOTAL_INTS) :
    stepChunk s (((mkFrame t pl).drop s.pos).take n) =
      (⟨mkFrame t pl, 0, STATE_t.STATE_FIND_SOF, toU32 t⟩,
        frameEvents s.last_frame_timestamp t pl) := by
  obtain ⟨buf, pos, st, last⟩ := s
  simp only at hbuf hcfg heq ⊢
  have hplen := wf.1
  have hflen := length_mkFrame t pl hplen
  have htkpos : buf.take pos = (mkFrame t pl).take pos := by
    rcases hcfg with ⟨_, h0⟩ | ⟨_, _, h⟩
    · simp [h0]
    · exact h
  set chunk := ((mkFrame t pl).drop pos).take n with hchunkdef
  have hchunklen : chunk.length = n := by
    simp only [hchunkdef, List.length_take, List.length_drop, hflen]
    omega
  have hwlen : (writeChunk buf pos chunk).length = FRAME_TOTAL_INTS := by
    rw [length_writeChunk buf chunk pos (by omega), hbuf]
  have hwtake : (writeChunk buf pos chunk).take (pos + n) =
      (mkFrame t pl).take (pos + n) := by
    have := take_writeChunk buf chunk pos (by omega)
    rw [hchunklen] at this
    rw [this, htkpos, hchunkdef, ← List.take_add]
  simp only [stepChunk, hchunklen]
  rw [if_neg (by omega)]
  rcases hcfg with ⟨hst, h0⟩ | ⟨hst, hpos1, _⟩
  · subst hst
    subst h0
    simp only []
    rw [if_neg (show ¬((writeChunk buf 0 chunk).getD 0 0 ≠ USB_SOF) from by
      have : (writeChunk buf 0 chunk).getD 0 0 = (mkFrame t pl).getD 0 0 :=
        getD_eq_of_take_eq (by simpa using hwtake) (by omega) 0
      rw [this, mkFrame_getD_zero]
      simp)]
    have := findEOFBody_frame_complete t pl wf (writeChunk buf 0 chunk) 0 n
      last (by simpa using hwlen) (by simpa using hwtake) hn
      (by simpa using heq)
    simpa using this
  · subst hst
    simp only []
    exact findEOFBody_frame_complete t pl wf (writeChunk buf pos chunk) pos n
      last hwlen hwtake hn heq

/-! ### Whole-run lemmas -/

theorem stepChunk_nil (s : SyncState) : stepChunk s [] = (s, []) := rfl

theorem framesStream_cons (fp : Int × List Int) (fs : List (Int × List Int)) :
    framesStream (fp :: fs) = mkFrame fp.1 fp.2 ++ framesStream fs := rfl

theorem framesStream_eq_nil {fs : List (Int × List Int)}
    (h : framesStream fs = []) : fs = [] := by
  cases fs with
  | nil => rfl
  | cons fp fs => simp [framesStream, mkFrame] at h

/-- Once the fill offset has reached `FRAME_TOTAL_INTS`, every further read
requests `0` bytes, so the loop makes no progress at all: the state, the
queued stream and the output never change again. -/
theorem run_stuck (sched : List Nat) :
    ∀ (s : SyncState) (stream : List Int), s.pos = FRAME_TOTAL_INTS →
      run s stream sched = (s, stream, []) := by
  induction sched with
  | nil => intro s stream _; rfl
  | cons k rest ih =>
    intro s stream h
    simp only [run, h, Nat.sub_self, Nat.zero_min, Nat.min_zero,
      List.take_zero, List.drop_zero, stepChunk_nil]
    rw [ih s stream h]
    rfl

theorem run_cons_projections (s : SyncState) (stream : List Int) (k : Nat)
    (rest : List Nat) (n : Nat)
    (hn : n = min k (min (FRAME_TOTAL_INTS - s.pos) stream.length))
    {s1 : SyncState} {ev1 : List Event}
    (hstep : stepChunk s (stream.take n) = (s1, ev1)) :
    (run s stream (k :: rest)).1 = (run s1 (stream.drop n) rest).1 ∧
      (run s stream (k :: rest)).2.1 = (run s1 (stream.drop n) rest).2.1 ∧
      (run s stream (k :: rest)).2.2 =
        ev1 ++ (run s1 (stream.drop n) rest).2.2 := by
  subst hn
  simp only [run, hstep]
  exact ⟨trivial, trivial, trivial⟩

/-- Core invariant argument: from a searching state at offset `0` whose queued
stream is a concatenation of well-formed frames (or mid-accumulation of the
first of them), a run that consumes the whole stream emits exactly the
per-frame events, and the retained timestamp threads through the frames. -/
theorem run_frames (sched : List Nat) :
    ∀ (fs : List (Int × List Int)) (s : SyncState) (stream : List Int),
      (∀ fp ∈ fs, wellFormedFrame fp.1 fp.2) →
      s.frame_buff.length = FRAME_TOTAL_INTS →
      ((s.state = STATE_t.STATE_FIND_SOF ∧ s.pos = 0 ∧
          stream = framesStream fs) ∨
        (∃ t pl fs', fs = (t, pl) :: fs' ∧
          s.state = STATE_t.STATE_FIND_EOF ∧ 1 ≤ s.pos ∧
          s.pos ≤ FRAME_TOTAL_INTS - 1 ∧
          stream = (mkFrame t pl).drop s.pos ++ framesStream fs' ∧
          s.frame_buff.take s.pos = (mkFrame t pl).take s.pos)) →
      (run s stream sched).2.1 = [] →
      (run s stream sched).2.2 =
          framesEvents s.last_frame_timestamp fs ∧
        (run s stream sched).1.last_frame_timestamp =
          framesLastTs s.last_frame_timestamp fs := by
  induction sched with
  | nil =>
    intro fs s stream hwf hbuf hcfg hconsume
    have hs0 : stream = [] := hconsume
    rcases hcfg with ⟨_, _, hstream⟩ |
      ⟨t, pl, fs', hfs, _, _, hpos2, hstream, _⟩
    · have hfs : fs = [] := framesStream_eq_nil (by rw [← hstream, hs0])
      subst hfs
      exact ⟨rfl, rfl⟩
    · exfalso
      have hwfhead : wellFormedFrame t pl :=
        hwf (t, pl) (by rw [hfs]; exact List.mem_cons_self _ _)
      have hflen := length_mkFrame t pl hwfhead.1
      rw [hs0] at hstream
      have hdn : (mkFrame t pl).drop s.pos = [] :=
        (List.append_eq_nil.mp hstream.symm).1
      have hle := List.drop_eq_nil_iff_le.mp hdn
      rw [hflen] at hle
      simp only [FRAME_TOTAL_INTS] at hle hpos2
      omega
  | cons k rest ih =>
    intro fs s stream hwf hbuf hcfg hconsume
    obtain ⟨n, hndef⟩ :
        ∃ n, n = min k (min (FRAME_TOTAL_INTS - s.pos) stream.length) :=
      ⟨_, rfl⟩
    rcases Nat.eq_zero_or_pos n with hn0 | hn1
    · have hstep : stepChunk s (stream.take n) = (s, []) := by
        rw [hn0, List.take_zero]
        exact stepChunk_nil s
      obtain ⟨e1, e2, e3⟩ :=
        run_cons_projections s stream k rest n hndef hstep
      rw [hn0, List.drop_zero] at e1 e2 e3
      rw [e2] at hconsume
      have hres := ih fs s stream hwf hbuf hcfg hconsume
      rw [e3, e1]
      simpa using hres
    · -- the head frame of the stream
      obtain ⟨t, pl, fs', hfs, hpos2, hstream, htk, hcfg'⟩ :
          ∃ t pl fs', fs = (t, pl) :: fs' ∧
            s.pos ≤ FRAME_TOTAL_INTS - 1 ∧
            stream = (mkFrame t pl).drop s.pos ++ framesStream fs' ∧
            s.frame_buff.take s.pos = (mkFrame t pl).take s.pos ∧
            ((s.state = STATE_t.STATE_FIND_SOF ∧ s.pos = 0) ∨
              (s.state = STATE_t.STATE_FIND_EOF ∧ 1 ≤ s.pos ∧
                s.frame_buff.take s.pos = (mkFrame t pl).take s.pos)) := by
        rcases hcfg with ⟨hst, hpos0, hstream⟩ |
          ⟨t, pl, fs', hfs, hst, hpos1, hpos2, hstream, htk⟩
        · cases fs with
          | nil =>
            exfalso
            rw [hstream] at hndef
            simp [framesStream] at hndef
            omega
          | cons hd fs' =>
            obtain ⟨t, pl⟩ := hd
            refine ⟨t, pl, fs', rfl, by simp [FRAME_TOTAL_INTS, hpos0], ?_,
              by simp [hpos0], Or.inl ⟨hst, hpos0⟩⟩
            rw [hstream, framesStream_cons, hpos0, List.drop_zero]
        · exact ⟨t, pl, fs', hfs, hpos2, hstream, htk,
            Or.inr ⟨hst, hpos1, htk⟩⟩
      have hwfhead : wellFormedFrame t pl :=
        hwf (t, pl) (by rw [hfs]; exact List.mem_cons_self _ _)
      have hflen := length_mkFrame t pl hwfhead.1
      have hdroplen : ((mkFrame t pl).drop s.pos).length =
          FRAME_TOTAL_INTS - s.pos := by
        simp [List.length_drop, hflen]
      have hnleA : n ≤ FRAME_TOTAL_INTS - s.pos := by
        rw [hndef]
        exact le_trans (Nat.min_le_right _ _) (Nat.min_le_left _ _)
      have hchunk : stream.take n = ((mkFrame t pl).drop s.pos).take n := by
        rw [hstream, List.take_append_eq_append_take]
        have h0 : n - ((mkFrame t pl).drop s.pos).length = 0 := by
          rw [hdroplen]; exact Nat.sub_eq_zero_of_le hnleA
        rw [h0, List.take_zero, List.append_nil]
      have hdrop : stream.drop n =
          (mkFrame t pl).drop (s.pos + n) ++ framesStream fs' := by
        rw [hstream, List.drop_append_eq_append_drop]
        have h0 : n - ((mkFrame t pl).drop s.pos).length = 0 := by
          rw [hdroplen]; exact Nat.sub_eq_zero_of_le hnleA
        rw [h0, List.drop_zero, List.drop_drop]
      rcases Nat.lt_or_ge (s.pos + n) FRAME_TOTAL_INTS with hlt | hge
      · -- the read ends strictly inside the frame: keep accumulating
        obtain ⟨buf', hstep, hlen', htake'⟩ :=
          stepChunk_frame_partial t pl hwfhead s hbuf hcfg' n hn1 hlt
        have hstep' : stepChunk s (stream.take n) =
            (⟨buf', s.pos + n, STATE_t.STATE_FIND_EOF,
              s.last_frame_timestamp⟩, []) := by
          rw [hchunk]; exact hstep
        obtain ⟨e1, e2, e3⟩ :=
          run_cons_projections s stream k rest n hndef hstep'
        rw [hdrop] at e1 e2 e3
        rw [e2] at hconsume
        have hg1 : 1 ≤ s.pos + n := by clear hndef; omega
        have hg2 : s.pos + n ≤ FRAME_TOTAL_INTS - 1 := by
          clear hndef
          simp only [FRAME_TOTAL_INTS] at hlt ⊢
          omega
        have hres := ih fs
          ⟨buf', s.pos + n, STATE_t.STATE_FIND_EOF, s.last_frame_timestamp⟩
          ((mkFrame t pl).drop (s.pos + n) ++ framesStream fs')
          hwf hlen'
          (Or.inr ⟨t, pl, fs', hfs, rfl, hg1, hg2, rfl, htake'⟩)
          hconsume
        rw [e3, e1]
        simpa using hres
      · -- the read ends exactly at the frame boundary: the frame is accepted
        have heq : s.pos + n = FRAME_TOTAL_INTS := by
          clear hndef
          simp only [FRAME_TOTAL_INTS] at hge hnleA hpos2 ⊢
          omega
        have hstep := stepChunk_frame_complete t pl hwfhead s hbuf hcfg' n hn1 heq
        have hstep' : stepChunk s (stream.take n) =
            (⟨mkFrame t pl, 0, STATE_t.STATE_FIND_SOF, toU32 t⟩,
              frameEvents s.last_frame_timestamp t pl) := by
          rw [hchunk]; exact hstep
        obtain ⟨e1, e2, e3⟩ :=
          run_cons_projections s stream k rest n hndef hstep'
        have hdropall : stream.drop n = framesStream fs' := by
          rw [hdrop]
          have hnil : (mkFrame t pl).drop (s.pos + n) = [] :=
            List.drop_eq_nil_of_le (by rw [hflen, heq])
          rw [hnil, List.nil_append]
        rw [hdropall] at e1 e2 e3
        rw [e2] at hconsume
        have hwf' : ∀ fp ∈ fs', wellFormedFrame fp.1 fp.2 := fun fp h =>
          hwf fp (by rw [hfs]; exact List.mem_cons_of_mem _ h)
        have hres := ih fs'
          ⟨mkFrame t pl, 0, STATE_t.STATE_FIND_SOF, toU32 t⟩
          (framesStream fs') hwf' hflen (Or.inl ⟨rfl, rfl, rfl⟩) hconsume
        constructor
        · rw [e3, hfs]
          simp only [framesEvents]
          rw [hres.1]
        · rw [e1, hfs]
          simp only [framesLastTs]
          rw [hres.2]

/-! ### Filtering and counting the emitted events -/

theorem length_expectedRows (t : Int) (pl : List Int) :
    (expectedRows t pl).length = N_FRAME_DATA := by
  simp [expectedRows]

theorem filter_isCsvRow_expectedRows (t : Int) (pl : List Int) :
    (expectedRows t pl).filter isCsvRow = expectedRows t pl := by
  apply List.filter_eq_self.mpr
  intro a ha
  rw [expectedRows] at ha
  obtain ⟨i, _, hi⟩ := List.mem_map.mp ha
  rw [← hi]
  rfl

theorem filter_isCsvRow_frameEvents (last : Nat) (t : Int) (pl : List Int) :
    (frameEvents last t pl).filter isCsvRow = expectedRows t pl := by
  rw [frameEvents, List.filter_append, filter_isCsvRow_expectedRows]
  split
  · simp [List.filter, isCsvRow]
  · simp

theorem filter_isCsvRow_framesEvents (last : Nat)
    (fs : List (Int × List Int)) :
    (framesEvents last fs).filter isCsvRow =
      (fs.map fun fp => expectedRows fp.1 fp.2).flatten := by
  induction fs generalizing last with
  | nil => rfl
  | cons fp fs ih =>
    simp only [framesEvents, List.filter_append, List.map_cons,
      List.flatten_cons, filter_isCsvRow_frameEvents, ih]

theorem count_warnInterval_expectedRows (t : Int) (pl : List Int) :
    (expectedRows t pl).count Event.warnInterval = 0 := by
  rw [List.count_eq_zero]
  intro h
  rw [expectedRows] at h
  obtain ⟨i, _, hi⟩ := List.mem_map.mp h
  exact absurd hi (by simp)

theorem count_warnInterval_frameEvents (last : Nat) (t : Int) (pl : List Int) :
    (frameEvents last t pl).count Event.warnInterval =
      if last ≠ 0 ∧ (toU32 t + 2 ^ 32 - last) % (2 ^ 32) ≠ FRAME_INTERVAL
        then 1 else 0 := by
  rw [frameEvents, List.count_append, count_warnInterval_expectedRows]
  split
  · rfl
  · rfl

theorem length_flatten_expectedRows (fs : List (Int × List Int)) :
    ((fs.map fun fp => expectedRows fp.1 fp.2).flatten).length =
      fs.length * N_FRAME_DATA := by
  induction fs with
  | nil => rfl
  | cons fp fs ih =>
    simp only [List.map_cons, List.flatten_cons, List.length_append, ih,
      length_expectedRows, List.length_cons]
    ring

theorem filter_isCsvRow_printData (buf : List Int) :
    ∀ (count ts i : Nat),
      (printData buf ts i count).filter isCsvRow = printData buf ts i count := by
  intro count
  induction count with
  | zero => intro ts i; rfl
  | succ c ih =>
    intro ts i
    simp only [printData, List.filter_cons]
    rw [ih]
    rfl

/-! ### Noise discarding, read errors, and the fill-offset invariant -/

/-- While searching for `SOF`, a read chunk that lies entirely inside the
noise (contains no `SOF` at all) is discarded wholesale: only the buffer
contents change. -/
theorem run_noise (css : List (List Int)) :
    ∀ (s : SyncState) (stream2 : List Int) (sched2 : List Nat),
      s.state = STATE_t.STATE_FIND_SOF → s.pos = 0 →
      s.frame_buff.length = FRAME_TOTAL_INTS →
      (∀ c ∈ css, c.length ≤ FRAME_TOTAL_INTS ∧ ∀ w ∈ c, w ≠ USB_SOF) →
      ∃ s' : SyncState,
        s'.state = STATE_t.STATE_FIND_SOF ∧ s'.pos = 0 ∧
        s'.frame_buff.length = FRAME_TOTAL_INTS ∧
        s'.last_frame_timestamp = s.last_frame_timestamp ∧
        (run s (css.flatten ++ stream2) (css.map List.length ++ sched2)).1 =
          (run s' stream2 sched2).1 ∧
        (run s (css.flatten ++ stream2) (css.map List.length ++ sched2)).2.1 =
          (run s' stream2 sched2).2.1 ∧
        (run s (css.flatten ++ stream2) (css.map List.length ++ sched2)).2.2 =
          (run s' stream2 sched2).2.2 := by
  induction css with
  | nil =>
    intro s stream2 sched2 h1 h2 h3 _
    exact ⟨s, h1, h2, h3, rfl, by simp, by simp, by simp⟩
  | cons c css ih =>
    intro s stream2 sched2 h1 h2 h3 hcs
    obtain ⟨buf, pos, st, last⟩ := s
    simp only at h1 h2 h3 ⊢
    subst h1
    subst h2
    have hc := hcs c (List.mem_cons_self _ _)
    have hstream : (c :: css).flatten ++ stream2 =
        c ++ (css.flatten ++ stream2) := by
      simp
    have hlenstream : c.length ≤ ((c :: css).flatten ++ stream2).length := by
      rw [hstream]
      simp
    have hndef : c.length =
        min c.length (min (FRAME_TOTAL_INTS - 0)
          ((c :: css).flatten ++ stream2).length) := by
      refine (le_antisymm (le_min (le_refl _) (le_min ?_ ?_))
        (Nat.min_le_left _ _))
      · exact le_trans hc.1 (by omega)
      · exact hlenstream
    have htakec : ((c :: css).flatten ++ stream2).take c.length = c := by
      rw [hstream, List.take_append_eq_append_take, Nat.sub_self,
        List.take_zero, List.append_nil, List.take_length]
    have hdropc : ((c :: css).flatten ++ stream2).drop c.length =
        css.flatten ++ stream2 := by
      rw [hstream, List.drop_append_eq_append_drop, Nat.sub_self,
        List.drop_zero]
      have hnil : c.drop c.length = [] := List.drop_eq_nil_of_le (le_refl _)
      rw [hnil, List.nil_append]
    rcases Nat.eq_zero_or_pos c.length with hcl0 | hcl1
    · -- an empty noise chunk is just the sleep-and-retry path
      have hstep : stepChunk ⟨buf, 0, STATE_t.STATE_FIND_SOF, last⟩
          (((c :: css).flatten ++ stream2).take c.length)
          = (⟨buf, 0, STATE_t.STATE_FIND_SOF, last⟩, []) := by
        rw [htakec, List.length_eq_zero.mp hcl0]
        exact stepChunk_nil _
      obtain ⟨e1, e2, e3⟩ := run_cons_projections
        ⟨buf, 0, STATE_t.STATE_FIND_SOF, last⟩ _ c.length
        (css.map List.length ++ sched2) c.length hndef hstep
      rw [hdropc] at e1 e2 e3
      obtain ⟨s', p1, p2, p3, p4, q1, q2, q3⟩ :=
        ih ⟨buf, 0, STATE_t.STATE_FIND_SOF, last⟩ stream2 sched2 rfl rfl h3
          (fun d hd => hcs d (List.mem_cons_of_mem _ hd))
      refine ⟨s', p1, p2, p3, p4, ?_, ?_, ?_⟩
      · rw [List.map_cons, List.cons_append, e1, q1]
      · rw [List.map_cons, List.cons_append, e2, q2]
      · rw [List.map_cons, List.cons_append, e3, q3]
        simp
    · -- a nonempty noise chunk: the word at offset 0 is not SOF, discard
      have hwtake : (writeChunk buf 0 c).take c.length = c := by
        have htw := take_writeChunk buf c 0 (Nat.zero_le _)
        simpa using htw
      have hnotsof : (writeChunk buf 0 c).getD 0 0 ≠ USB_SOF := by
        have hgd : (writeChunk buf 0 c).getD 0 0 = c.getD 0 0 := by
          apply getD_eq_of_take_eq (m := c.length)
          · rw [hwtake, List.take_length]
          · omega
        rw [hgd]
        exact hc.2 _ (getD_mem_of_lt c 0 (by omega) 0)
      have hstep : stepChunk ⟨buf, 0, STATE_t.STATE_FIND_SOF, last⟩
          (((c :: css).flatten ++ stream2).take c.length)
          = (⟨writeChunk buf 0 c, 0, STATE_t.STATE_FIND_SOF, last⟩, []) := by
        rw [htakec]
        simp only [stepChunk]
        rw [if_neg (by omega)]
        rw [if_pos hnotsof]
      obtain ⟨e1, e2, e3⟩ := run_cons_projections
        ⟨buf, 0, STATE_t.STATE_FIND_SOF, last⟩ _ c.length
        (css.map List.length ++ sched2) c.length hndef hstep
      rw [hdropc] at e1 e2 e3
      have hblen : (writeChunk buf 0 c).length = FRAME_TOTAL_INTS := by
        rw [length_writeChunk buf c 0 (by omega), h3]
      obtain ⟨s', p1, p2, p3, p4, q1, q2, q3⟩ :=
        ih ⟨writeChunk buf 0 c, 0, STATE_t.STATE_FIND_SOF, last⟩
          stream2 sched2 rfl rfl hblen
          (fun d hd => hcs d (List.mem_cons_of_mem _ hd))
      refine ⟨s', p1, p2, p3, p4, ?_, ?_, ?_⟩
      · rw [List.map_cons, List.cons_append, e1, q1]
      · rw [List.map_cons, List.cons_append, e2, q2]
      · rw [List.map_cons, List.cons_append, e3, q3]
        simp

/-- A read error terminates the whole run at once: events before it are kept,
the diagnostic is emitted, cleanup happens, and the rest of the schedule is
never consulted. -/
theorem runE_error (pre : List ReadOp) :
    ∀ (s : SyncState) (stream : List Int) (post : List ReadOp),
      (∀ op ∈ pre, op ≠ ReadOp.rerr) →
      (runE s stream (pre ++ ReadOp.rerr :: post)).2.2.2
          = some readErrorExit ∧
      (runE s stream (pre ++ ReadOp.rerr :: post)).2.2.1
          = (runE s stream pre).2.2.1 ++ [Event.errRead] ∧
      ∀ post' : List ReadOp,
        runE s stream (pre ++ ReadOp.rerr :: post)
          = runE s stream (pre ++ ReadOp.rerr :: post') := by
  induction pre with
  | nil =>
    intro s stream post _
    exact ⟨rfl, rfl, fun _ => rfl⟩
  | cons op pre ih =>
    intro s stream post hok
    have hop : op ≠ ReadOp.rerr := hok op (List.mem_cons_self _ _)
    match op, hop with
    | ReadOp.rok k, _ =>
      have hih := ih (stepChunk s (stream.take
          (min k (min (FRAME_TOTAL_INTS - s.pos) stream.length)))).1
        (stream.drop (min k (min (FRAME_TOTAL_INTS - s.pos) stream.length)))
        post (fun d hd => hok d (List.mem_cons_of_mem _ hd))
      refine ⟨?_, ?_, ?_⟩
      · simpa only [List.cons_append, runE] using hih.1
      · simp only [List.cons_append, runE, List.append_eq]
        rw [hih.2.1]
        simp
      · intro post'
        have hih' := hih.2.2 post'
        simp only [List.cons_append, runE, List.append_eq]
        rw [hih']

/-! ### The fill-offset invariant -/

theorem findEOFBody_inv (s : SyncState) (n : Nat)
    (h : s.pos + n ≤ FRAME_TOTAL_INTS) (hn : 1 ≤ n) :
    (findEOFBody s n).1.pos ≤ FRAME_TOTAL_INTS ∧
    (findEOFBody s n).1.frame_buff = s.frame_buff := by
  by_cases h1 : s.frame_buff.getD (s.pos + n - 1) 0 ≠ USB_EOF_I32
  · by_cases h2 : s.pos + n - 1 ≥ FRAME_TOTAL_INTS
    · have hr : findEOFBody s n =
          ({ s with pos := 0, state := STATE_t.STATE_FIND_SOF },
            [Event.errFrameLength]) := by
        simp only [findEOFBody, if_pos h1, if_pos h2]
      rw [hr]
      exact ⟨by show (0:Nat) ≤ FRAME_TOTAL_INTS; omega, rfl⟩
    · have hr : findEOFBody s n =
          ({ s with pos := s.pos + n - 1 + 1 }, []) := by
        simp only [findEOFBody, if_pos h1, if_neg h2]
      rw [hr]
      refine ⟨?_, rfl⟩
      show s.pos + n - 1 + 1 ≤ FRAME_TOTAL_INTS
      omega
  · have hr : findEOFBody s n =
        ({ s with
            pos := 0
            state := STATE_t.STATE_FIND_SOF
            last_frame_timestamp :=
              (emitFrame s.frame_buff (s.pos + n - 1)
                s.last_frame_timestamp).2 },
          (emitFrame s.frame_buff (s.pos + n - 1)
            s.last_frame_timestamp).1) := by
      simp only [findEOFBody, if_neg h1]
    rw [hr]
    exact ⟨by show (0:Nat) ≤ FRAME_TOTAL_INTS; omega, rfl⟩

theorem stepChunk_inv (s : SyncState) (chunk : List Int)
    (hpos : s.pos ≤ FRAME_TOTAL_INTS)
    (hbuf : s.frame_buff.length = FRAME_TOTAL_INTS)
    (hchunk : chunk.length ≤ FRAME_TOTAL_INTS - s.pos) :
    (stepChunk s chunk).1.pos ≤ FRAME_TOTAL_INTS ∧
    (stepChunk s chunk).1.frame_buff.length = FRAME_TOTAL_INTS := by
  rcases Nat.eq_zero_or_pos chunk.length with h0 | h1
  · rw [List.length_eq_zero.mp h0, stepChunk_nil]
    exact ⟨hpos, hbuf⟩
  · obtain ⟨buf, pos, st, last⟩ := s
    simp only at hpos hbuf hchunk ⊢
    have hwlen : (writeChunk buf pos chunk).length = FRAME_TOTAL_INTS := by
      rw [length_writeChunk buf chunk pos (by omega), hbuf]
    simp only [stepChunk]
    rw [if_neg (by omega)]
    cases st with
    | STATE_FIND_SOF =>
      simp only []
      by_cases hsof : (writeChunk buf pos chunk).getD pos 0 ≠ USB_SOF
      · rw [if_pos hsof]
        exact ⟨hpos, hwlen⟩
      · rw [if_neg hsof]
        have hfe := findEOFBody_inv
          ⟨writeChunk buf pos chunk, pos, STATE_t.STATE_FIND_EOF, last⟩
          chunk.length (by show pos + chunk.length ≤ _; omega) h1
        refine ⟨hfe.1, ?_⟩
        rw [hfe.2]
        exact hwlen
    | STATE_FIND_EOF =>
      simp only []
      have hfe := findEOFBody_inv
        ⟨writeChunk buf pos chunk, pos, STATE_t.STATE_FIND_EOF, last⟩
        chunk.length (by show pos + chunk.length ≤ _; omega) h1
      refine ⟨hfe.1, ?_⟩
      rw [hfe.2]
      exact hwlen

theorem run_inv (sched : List Nat) :
    ∀ (s : SyncState) (stream : List Int),
      s.pos ≤ FRAME_TOTAL_INTS →
      s.frame_buff.length = FRAME_TOTAL_INTS →
      (run s stream sched).1.pos ≤ FRAME_TOTAL_INTS ∧
      (run s stream sched).1.frame_buff.length = FRAME_TOTAL_INTS := by
  induction sched with
  | nil => intro s stream hpos hbuf; exact ⟨hpos, hbuf⟩
  | cons k rest ih =>
    intro s stream hpos hbuf
    obtain ⟨n, hndef⟩ :
        ∃ n, n = min k (min (FRAME_TOTAL_INTS - s.pos) stream.length) :=
      ⟨_, rfl⟩
    have hchunk : (stream.take n).length ≤ FRAME_TOTAL_INTS - s.pos := by
      rw [List.length_take, hndef]
      have hm : min k (min (FRAME_TOTAL_INTS - s.pos) stream.length) ≤
          FRAME_TOTAL_INTS - s.pos :=
        le_trans (Nat.min_le_right _ _) (Nat.min_le_left _ _)
      omega
    have hstep := stepChunk_inv s (stream.take n) hpos hbuf hchunk
    have hrec := ih (stepChunk s (stream.take n)).1 (stream.drop n)
      hstep.1 hstep.2
    obtain ⟨e1, e2, e3⟩ := run_cons_projections s stream k rest n hndef rfl
    constructor
    · rw [e1]; exact hrec.1
    · rw [e1]; exact hrec.2

/-! ### Shallow evaluation helpers for concrete inputs -/

theorem getD_replicate (x d : Int) :
    ∀ (n i : Nat), i < n → (List.replicate n x).getD i d = x := by
  intro n
  induction n with
  | zero => intro i h; omega
  | succ m ih =>
    intro i h
    rw [List.replicate_succ]
    cases i with
    | zero => rfl
    | succ j => exact ih j (by omega)

theorem expectedRows_getD (t : Int) (pl : List Int) (i : Nat)
    (h : i < N_FRAME_DATA) (d : Event) :
    (expectedRows t pl).getD i d =
      Event.csvRow (toU32 t * 1000 % 2 ^ 32 + TS_INCR * i) (pl.getD i 0) := by
  rw [expectedRows]
  have hlen : i < ((List.range N_FRAME_DATA).map fun j =>
      Event.csvRow (toU32 t * 1000 % 2 ^ 32 + TS_INCR * j)
        (pl.getD j 0)).length := by
    simpa using h
  rw [List.getD_eq_getElem _ _ hlen]
  simp

theorem wellFormedFrame_replicate (t x : Int) (h1 : t ≠ USB_SOF)
    (h2 : t ≠ USB_EOF_I32) (h3 : x ≠ USB_SOF) (h4 : x ≠ USB_EOF_I32) :
    wellFormedFrame t (List.replicate N_FRAME_DATA x) :=
  ⟨List.length_replicate _ _, h1, h2, fun _ hv => by
    rw [List.eq_of_mem_replicate hv]; exact ⟨h3, h4⟩⟩

theorem findEOFBody_accumulate (buf' : List Int) (pos n last : Nat)
    (hne : buf'.getD (pos + n - 1) 0 ≠ USB_EOF_I32)
    (hlt : pos + n - 1 < FRAME_TOTAL_INTS) :
    findEOFBody ⟨buf', pos, STATE_t.STATE_FIND_EOF, last⟩ n =
      (⟨buf', pos + n - 1 + 1, STATE_t.STATE_FIND_EOF, last⟩, []) := by
  simp only [findEOFBody]
  rw [if_pos hne, if_neg (by omega)]

theorem stepChunk_discard (s : SyncState) (chunk : List Int)
    (hst : s.state = STATE_t.STATE_FIND_SOF) (hpos : s.pos = 0)
    (hlen : 1 ≤ chunk.length) (hhead : chunk.getD 0 0 ≠ USB_SOF) :
    stepChunk s chunk =
      ({ s with frame_buff := writeChunk s.frame_buff s.pos chunk }, []) := by
  obtain ⟨buf, pos, st, last⟩ := s
  simp only at hst hpos ⊢
  subst hst
  subst hpos
  have hw : (writeChunk buf 0 chunk).getD 0 0 = chunk.getD 0 0 := by
    apply getD_eq_of_take_eq (m := chunk.length)
    · have htw := take_writeChunk buf chunk 0 (Nat.zero_le _)
      simpa using htw
    · omega
  simp only [stepChunk]
  rw [if_neg (by omega)]
  rw [if_pos (by rw [hw]; exact hhead)]

theorem framesStream_length (fs : List (Int × List Int))
    (hwf : ∀ fp ∈ fs, wellFormedFrame fp.1 fp.2) :
    (framesStream fs).length = fs.length * FRAME_TOTAL_INTS := by
  induction fs with
  | nil => rfl
  | cons fp fs ih =>
    rw [framesStream_cons, List.length_append,
      length_mkFrame fp.1 fp.2 (hwf fp (List.mem_cons_self _ _)).1,
      ih (fun d hd => hwf d (List.mem_cons_of_mem _ hd)), List.length_cons]
    ring

/-- A schedule of one full-size read per frame consumes the whole stream. -/
theorem run_frame_reads (fs : List (Int × List Int)) :
    ∀ s : SyncState, (∀ fp ∈ fs, wellFormedFrame fp.1 fp.2) →
      s.state = STATE_t.STATE_FIND_SOF → s.pos = 0 →
      s.frame_buff.length = FRAME_TOTAL_INTS →
      (run s (framesStream fs)
        (List.replicate fs.length FRAME_TOTAL_INTS)).2.1 = [] := by
  induction fs with
  | nil => intro s _ _ _ _; rfl
  | cons fp fs ih =>
    intro s hwf h1 h2 h3
    obtain ⟨t, pl⟩ := fp
    have hwfh : wellFormedFrame t pl := hwf (t, pl) (List.mem_cons_self _ _)
    have hflen := length_mkFrame t pl hwfh.1
    have hstreamlen : (framesStream ((t, pl) :: fs)).length =
        FRAME_TOTAL_INTS + (framesStream fs).length := by
      rw [framesStream_cons, List.length_append, hflen]
    have hndef : FRAME_TOTAL_INTS = min FRAME_TOTAL_INTS
        (min (FRAME_TOTAL_INTS - s.pos)
          (framesStream ((t, pl) :: fs)).length) := by
      rw [h2, hstreamlen, Nat.sub_zero]
      have h4 : FRAME_TOTAL_INTS ≤ FRAME_TOTAL_INTS + (framesStream fs).length :=
        Nat.le_add_right _ _
      omega
    have htake : (framesStream ((t, pl) :: fs)).take FRAME_TOTAL_INTS =
        ((mkFrame t pl).drop s.pos).take FRAME_TOTAL_INTS := by
      rw [h2, List.drop_zero, framesStream_cons,
        List.take_append_eq_append_take, hflen, Nat.sub_self, List.take_zero,
        List.append_nil]
    have hdrop : (framesStream ((t, pl) :: fs)).drop FRAME_TOTAL_INTS =
        framesStream fs := by
      rw [framesStream_cons, List.drop_append_eq_append_drop, hflen,
        Nat.sub_self, List.drop_zero,
        List.drop_eq_nil_of_le (le_of_eq hflen), List.nil_append]
    have hstep := stepChunk_frame_complete t pl hwfh s h3
      (Or.inl ⟨h1, h2⟩) FRAME_TOTAL_INTS (by decide)
      (by rw [h2]; exact Nat.zero_add _)
    have hstep' : stepChunk s
        ((framesStream ((t, pl) :: fs)).take FRAME_TOTAL_INTS) =
        (⟨mkFrame t pl, 0, STATE_t.STATE_FIND_SOF, toU32 t⟩,
          frameEvents s.last_frame_timestamp t pl) := by
      rw [htake]
      exact hstep
    have hrepl : List.replicate ((t, pl) :: fs).length FRAME_TOTAL_INTS =
        FRAME_TOTAL_INTS ::
          List.replicate fs.length FRAME_TOTAL_INTS := by
      rw [List.length_cons, List.replicate_succ]
    rw [hrepl]
    obtain ⟨e1, e2, e3⟩ := run_cons_projections s
      (framesStream ((t, pl) :: fs)) FRAME_TOTAL_INTS
      (List.replicate fs.length FRAME_TOTAL_INTS) FRAME_TOTAL_INTS hndef
      hstep'
    rw [e2, hdrop]
    exact ih ⟨mkFrame t pl, 0, STATE_t.STATE_FIND_SOF, toU32 t⟩
      (fun d hd => hwf d (List.mem_cons_of_mem _ hd)) rfl rfl hflen

theorem initState_length : initState.frame_buff.length = FRAME_TOTAL_INTS :=
  List.length_replicate _ _

theorem framesStream_nil : framesStream [] = [] := rfl

theorem framesEvents_cons (last : Nat) (fp : Int × List Int)
    (fs : List (Int × List Int)) :
    framesEvents last (fp :: fs) =
      frameEvents last fp.1 fp.2 ++ framesEvents (toU32 fp.1) fs := rfl

theorem framesEvents_nil (last : Nat) : framesEvents last [] = [] := rfl

/-- A run over an exhausted device makes no progress. -/
theorem run_empty_stream (sched : List Nat) :
    ∀ s : SyncState, run s ([] : List Int) sched = (s, [], []) := by
  induction sched with
  | nil => intro s; rfl
  | cons k rest ih =>
    intro s
    simp only [run, List.length_nil, Nat.min_zero, List.take_nil,
      List.drop_nil, stepChunk_nil, ih, List.nil_append]

/-! ### Claim theorems -/

/-- Input for the overrun scenario of C1: `SOF` followed by 1253 further
words, none of which equals `EOF` (nor `SOF`). -/
def overrunStream : List Int := USB_SOF :: List.replicate 1253 1

/-- C1: the spec claims that a stream of `SOF` followed by 1253+ non-`EOF`
words triggers a length-overrun diagnostic and resynchronization.  On the
code, after a full-frame read of 1253 words with no `EOF`, the fill offset
reaches 1253, every later read requests `0` bytes, and the loop spins
forever: no diagnostic is ever emitted (the overrun branch is unreachable),
the state never returns to searching, and the remaining input is never
consumed.  This theorem exhibits that behaviour for every continuation
schedule. -/
theorem C1_overrun_dead_code_hang (sched : List Nat) :
    (run initState overrunStream (1253 :: sched)).2.2 = [] ∧
    (run initState overrunStream (1253 :: sched)).1.pos = FRAME_TOTAL_INTS ∧
    (run initState overrunStream (1253 :: sched)).1.state =
      STATE_t.STATE_FIND_EOF ∧
    (run initState overrunStream (1253 :: sched)).2.1 = [1] := by
  have hslen : overrunStream.length = 1254 := by
    rw [overrunStream, List.length_cons, List.length_replicate]
  have hndef : (1253 : Nat) =
      min 1253 (min (FRAME_TOTAL_INTS - initState.pos)
        overrunStream.length) := by
    rw [hslen]
    decide
  have hchunk : overrunStream.take 1253 =
      USB_SOF :: List.replicate 1252 1 := by
    show USB_SOF :: (List.replicate 1253 (1 : Int)).take 1252 = _
    rw [List.take_replicate, show min 1252 1253 = 1252 from rfl]
  have hclen : (USB_SOF :: List.replicate 1252 (1 : Int)).length = 1253 := by
    rw [List.length_cons, List.length_replicate]
  have hbuf' : writeChunk (List.replicate FRAME_TOTAL_INTS 0) 0
      (USB_SOF :: List.replicate 1252 1) =
      USB_SOF :: List.replicate 1252 1 := by
    rw [writeChunk, hclen, List.take_zero, List.nil_append, Nat.zero_add,
      List.drop_replicate, show FRAME_TOTAL_INTS - 1253 = 0 from rfl,
      List.replicate_zero, List.append_nil]
  have hg : (USB_SOF :: List.replicate 1252 (1 : Int)).getD 1252 0 = 1 := by
    rw [show (1252 : Nat) = 1251 + 1 from rfl, List.getD_cons_succ]
    exact getD_replicate 1 0 (1251 + 1) 1251 (by omega)
  have hstep : stepChunk initState (USB_SOF :: List.replicate 1252 1) =
      (⟨USB_SOF :: List.replicate 1252 1, 1253, STATE_t.STATE_FIND_EOF, 0⟩,
        []) := by
    simp only [stepChunk, initState]
    rw [hclen]
    rw [if_neg (by norm_num), hbuf']
    rw [if_neg (show ¬((USB_SOF :: List.replicate 1252 (1 : Int)).getD 0 0 ≠
      USB_SOF) from not_not_intro rfl)]
    have hacc := findEOFBody_accumulate (USB_SOF :: List.replicate 1252 1)
      0 1253 0
      (by rw [show (0 + 1253 - 1 : Nat) = 1252 from rfl, hg]; decide)
      (by decide)
    rw [hacc]
  have hstep' : stepChunk initState (overrunStream.take 1253) =
      (⟨USB_SOF :: List.replicate 1252 1, 1253, STATE_t.STATE_FIND_EOF, 0⟩,
        []) := by
    rw [hchunk]
    exact hstep
  obtain ⟨e1, e2, e3⟩ := run_cons_projections initState overrunStream 1253
    sched 1253 hndef hstep'
  have hstuck := run_stuck sched
    ⟨USB_SOF :: List.replicate 1252 1, 1253, STATE_t.STATE_FIND_EOF, 0⟩
    (overrunStream.drop 1253) rfl
  have hdropfin : overrunStream.drop 1253 = [1] := by
    show (List.replicate 1253 (1 : Int)).drop 1252 = [1]
    rw [List.drop_replicate, show (1253 - 1252 : Nat) = 1 from rfl]
    rfl
  refine ⟨?_, ?_, ?_, ?_⟩
  · simp only [e3, hstuck, List.nil_append]
  · simp only [e1, hstuck, FRAME_TOTAL_INTS]
  · simp only [e1, hstuck]
  · simp only [e2, hstuck]
    exact hdropfin

/-- C2: a failing `read` is fatal: the loop stops at once, the diagnostic is
printed, the frame buffer is freed, the device descriptor and the CSV file
are closed, the process exits with `EXIT_FAILURE` (1), and the rest of the
schedule (any retry) is irrelevant. -/
theorem C2_read_error_fatal (pre : List ReadOp) (s : SyncState)
    (stream : List Int) (post : List ReadOp)
    (hok : ∀ op ∈ pre, op ≠ ReadOp.rerr) :
    (runE s stream (pre ++ ReadOp.rerr :: post)).2.2.2 =
      some readErrorExit ∧
    readErrorExit.code = EXIT_FAILURE ∧
    readErrorExit.freed_frame_buff = true ∧
    readErrorExit.closed_tty = true ∧
    readErrorExit.closed_fcsv = true ∧
    (runE s stream (pre ++ ReadOp.rerr :: post)).2.2.1 =
      (runE s stream pre).2.2.1 ++ [Event.errRead] ∧
    ∀ post', runE s stream (pre ++ ReadOp.rerr :: post) =
      runE s stream (pre ++ ReadOp.rerr :: post') := by
  obtain ⟨a, b, c⟩ := runE_error pre s stream post hok
  exact ⟨a, rfl, rfl, rfl, rfl, b, c⟩

/-- Witness for C2 at a concrete input. -/
theorem C2_read_error_fatal_witness :
    (∀ op ∈ [ReadOp.rok 2], op ≠ ReadOp.rerr) ∧
    (runE initState [5, 6] ([ReadOp.rok 2] ++ ReadOp.rerr :: [])).2.2.2 =
      some readErrorExit :=
  ⟨by decide,
    (C2_read_error_fatal [ReadOp.rok 2] initState [5, 6] [] (by decide)).1⟩

/-- C3 counterexample: the conversion of the frame timestamp to microseconds
is computed in 32-bit unsigned arithmetic before widening (line 201), so for
timestamp word `-1` (`T = 4294967295` ms) the first emitted row carries
`(T*1000) mod 2^32 = 4294966296`, not the exact product `T*1000`. -/
theorem C3_counterexample_timestamp_wrap :
    toU32 (-1) = 4294967295 ∧
    (run initState (mkFrame (-1) (List.replicate 1250 37))
      [FRAME_TOTAL_INTS]).2.2.getD 0 Event.errRead =
      Event.csvRow 4294966296 37 ∧
    (4294966296 : Nat) ≠ 4294967295 * 1000 := by
  have hwf : wellFormedFrame (-1) (List.replicate 1250 37) :=
    wellFormedFrame_replicate (-1) 37 (by decide) (by decide) (by decide)
      (by decide)
  have hwfall : ∀ fp ∈ [((-1 : Int), List.replicate 1250 (37 : Int))],
      wellFormedFrame fp.1 fp.2 := by
    intro fp hfp
    rw [List.mem_singleton] at hfp
    subst hfp
    exact hwf
  have hstream : mkFrame (-1) (List.replicate 1250 37) =
      framesStream [((-1 : Int), List.replicate 1250 (37 : Int))] := by
    rw [framesStream_cons, framesStream_nil, List.append_nil]
  have hcons : (run initState (mkFrame (-1) (List.replicate 1250 37))
      [FRAME_TOTAL_INTS]).2.1 = [] := by
    rw [hstream]
    exact run_frame_reads [((-1 : Int), List.replicate 1250 (37 : Int))]
      initState hwfall rfl rfl initState_length
  have hres := run_frames [FRAME_TOTAL_INTS]
    [((-1 : Int), List.replicate 1250 (37 : Int))] initState
    (mkFrame (-1) (List.replicate 1250 37)) hwfall initState_length
    (Or.inl ⟨rfl, rfl, hstream⟩) hcons
  refine ⟨by decide, ?_, by decide⟩
  rw [hres.1]
  have hev : framesEvents initState.last_frame_timestamp
      [((-1 : Int), List.replicate 1250 (37 : Int))] =
      expectedRows (-1) (List.replicate 1250 37) := by
    rw [framesEvents_cons, framesEvents_nil, List.append_nil, frameEvents]
    rw [if_neg (fun h => h.1 rfl), List.nil_append]
  rw [hev, expectedRows_getD (-1) _ 0 (by decide) _,
    getD_replicate 37 0 1250 0 (by decide)]
  decide

/-- C3 (amended): for an accepted well-formed frame with timestamp word `t`,
the 1250 CSV rows carry timestamps `(T*1000 mod 2^32) + 80*i` for
`i = 0..1249`, where `T` is the `uint32_t` value of `t`: the start value is
the product reduced modulo 2^32 (the C code multiplies in `uint32_t` before
widening to `uint64_t`), and each successive sample adds exactly
`floor(100000/1250) = 80` microseconds. -/
theorem C3_timestamp_interpolation (t : Int) (pl : List Int)
    (sched : List Nat) (wf : wellFormedFrame t pl)
    (hconsume : (run initState (mkFrame t pl) sched).2.1 = []) :
    (run initState (mkFrame t pl) sched).2.2 =
      (List.range 1250).map fun i =>
        Event.csvRow (toU32 t * 1000 % 2 ^ 32 + 80 * i) (pl.getD i 0) := by
  have hstream : mkFrame t pl = framesStream [(t, pl)] := by
    rw [framesStream_cons, framesStream_nil, List.append_nil]
  have hres := run_frames sched [(t, pl)] initState (mkFrame t pl)
    (by intro fp hfp; rw [List.mem_singleton] at hfp; subst hfp; exact wf)
    initState_length (Or.inl ⟨rfl, rfl, hstream⟩) hconsume
  rw [hres.1, framesEvents_cons, framesEvents_nil, List.append_nil,
    frameEvents]
  rw [if_neg (fun h => h.1 rfl), List.nil_append, expectedRows]
  rfl

/-- Witness for C3 (amended) at a concrete frame. -/
theorem C3_timestamp_interpolation_witness :
    wellFormedFrame 5 (List.replicate 1250 3) ∧
    (run initState (mkFrame 5 (List.replicate 1250 3))
      [FRAME_TOTAL_INTS]).2.1 = [] ∧
    (run initState (mkFrame 5 (List.replicate 1250 3))
      [FRAME_TOTAL_INTS]).2.2 =
      (List.range 1250).map fun i =>
        Event.csvRow (toU32 5 * 1000 % 2 ^ 32 + 80 * i)
          ((List.replicate 1250 (3 : Int)).getD i 0) := by
  have hwf : wellFormedFrame 5 (List.replicate 1250 3) :=
    wellFormedFrame_replicate 5 3 (by decide) (by decide) (by decide)
      (by decide)
  have hcons : (run initState (mkFrame 5 (List.replicate 1250 3))
      [FRAME_TOTAL_INTS]).2.1 = [] := by
    rw [show mkFrame 5 (List.replicate 1250 3) =
      framesStream [((5 : Int), List.replicate 1250 (3 : Int))] from by
        rw [framesStream_cons, framesStream_nil, List.append_nil]]
    exact run_frame_reads [((5 : Int), List.replicate 1250 (3 : Int))]
      initState
      (by intro fp hfp; rw [List.mem_singleton] at hfp; subst hfp; exact hwf)
      rfl rfl initState_length
  exact ⟨hwf, hcons,
    C3_timestamp_interpolation 5 (List.replicate 1250 3) [FRAME_TOTAL_INTS]
      hwf hcons⟩

/-- C4 counterexample: noise word `7` followed by one well-formed frame,
partitioned so that one read delivers `[7, SOF]`.  Because the `SOF` check
looks only at buffer position 0, the whole chunk (including the `SOF`) is
discarded, the rest of the stream never matches, and zero CSV rows come out
even though the whole stream was delivered - against the claim that every
partition yields the frame's 1250 samples. -/
theorem C4_counterexample_read_spanning_sof :
    (∀ w ∈ [(7 : Int)], w ≠ USB_SOF) ∧
    wellFormedFrame 5 (List.replicate 1250 2) ∧
    (run initState ([7] ++ mkFrame 5 (List.replicate 1250 2))
      [2, 1253, 1253]).2.1 = [] ∧
    ((run initState ([7] ++ mkFrame 5 (List.replicate 1250 2))
      [2, 1253, 1253]).2.2).filter isCsvRow = [] := by
  have hwf : wellFormedFrame 5 (List.replicate 1250 2) :=
    wellFormedFrame_replicate 5 2 (by decide) (by decide) (by decide)
      (by decide)
  have hlenf := length_mkFrame 5 (List.replicate 1250 2) hwf.1
  have hslen : ([(7 : Int)] ++ mkFrame 5 (List.replicate 1250 2)).length =
      1254 := by
    rw [List.length_append, hlenf]
    rfl
  have hndef1 : (2 : Nat) = min 2 (min (FRAME_TOTAL_INTS - initState.pos)
      ([(7 : Int)] ++ mkFrame 5 (List.replicate 1250 2)).length) := by
    rw [hslen]
    decide
  have htake1 : ([(7 : Int)] ++ mkFrame 5 (List.replicate 1250 2)).take 2 =
      [7, USB_SOF] := rfl
  have hstep1 : stepChunk initState
      (([(7 : Int)] ++ mkFrame 5 (List.replicate 1250 2)).take 2) =
      (⟨writeChunk initState.frame_buff initState.pos [7, USB_SOF], 0,
        STATE_t.STATE_FIND_SOF, 0⟩, []) := by
    rw [htake1]
    exact stepChunk_discard initState [7, USB_SOF] rfl rfl (by decide)
      (by decide)
  obtain ⟨e1, e2, e3⟩ := run_cons_projections initState
    ([(7 : Int)] ++ mkFrame 5 (List.replicate 1250 2)) 2 [1253, 1253] 2
    hndef1 hstep1
  have hdrop1 : ([(7 : Int)] ++ mkFrame 5 (List.replicate 1250 2)).drop 2 =
      (5 : Int) :: (List.replicate 1250 (2 : Int) ++ [USB_EOF_I32]) := rfl
  have hs1len : ((5 : Int) :: (List.replicate 1250 (2 : Int) ++
      [USB_EOF_I32])).length = 1252 := by
    rw [List.length_cons, List.length_append, List.length_replicate]
    rfl
  have hndef2 : (1252 : Nat) = min 1253
      (min (FRAME_TOTAL_INTS -
        (⟨writeChunk initState.frame_buff initState.pos [7, USB_SOF], 0,
          STATE_t.STATE_FIND_SOF, 0⟩ : SyncState).pos)
        ((5 : Int) :: (List.replicate 1250 (2 : Int) ++
          [USB_EOF_I32])).length) := by
    rw [hs1len]
    decide
  have hhd2 : (((5 : Int) :: (List.replicate 1250 (2 : Int) ++
      [USB_EOF_I32])).take 1252).getD 0 0 = 5 := by
    rw [getD_take_of_lt _ _ _ (by norm_num)]
    rfl
  have htklen2 : (((5 : Int) :: (List.replicate 1250 (2 : Int) ++
      [USB_EOF_I32])).take 1252).length = 1252 := by
    rw [List.length_take, hs1len]
    decide
  have hstep2 : stepChunk
      ⟨writeChunk initState.frame_buff initState.pos [7, USB_SOF], 0,
        STATE_t.STATE_FIND_SOF, 0⟩
      (((5 : Int) :: (List.replicate 1250 (2 : Int) ++
        [USB_EOF_I32])).take 1252) =
      (⟨writeChunk
          (writeChunk initState.frame_buff initState.pos [7, USB_SOF]) 0
          (((5 : Int) :: (List.replicate 1250 (2 : Int) ++
            [USB_EOF_I32])).take 1252), 0,
        STATE_t.STATE_FIND_SOF, 0⟩, []) :=
    stepChunk_discard _ _ rfl rfl (by rw [htklen2]; norm_num)
      (by rw [hhd2]; decide)
  obtain ⟨f1, f2, f3⟩ := run_cons_projections
    ⟨writeChunk initState.frame_buff initState.pos [7, USB_SOF], 0,
      STATE_t.STATE_FIND_SOF, 0⟩
    ((5 : Int) :: (List.replicate 1250 (2 : Int) ++ [USB_EOF_I32]))
    1253 [1253] 1252 hndef2 hstep2
  have hdrop2 : ((5 : Int) :: (List.replicate 1250 (2 : Int) ++
      [USB_EOF_I32])).drop 1252 = [] :=
    List.drop_eq_nil_of_le (le_of_eq hs1len)
  refine ⟨by decide, hwf, ?_, ?_⟩
  · rw [e2, hdrop1, f2, hdrop2, run_empty_stream]
  · rw [e3, hdrop1, f3, hdrop2, run_empty_stream]
    rfl

/-- C4 (amended): for a stream of noise (no word equal to `SOF`) followed by
one well-formed frame, and any partition in which every read taken while
noise remains lies entirely within the noise (so the frame's `SOF` is the
first word of its read), the synchronizer discards all the noise and emits
exactly the frame's 1250 payload samples. -/
theorem C4_resync (css : List (List Int)) (t : Int) (pl : List Int)
    (fsched : List Nat) (wf : wellFormedFrame t pl)
    (hnoise : ∀ c ∈ css, c.length ≤ FRAME_TOTAL_INTS ∧ ∀ w ∈ c, w ≠ USB_SOF)
    (hconsume : (run initState (css.flatten ++ mkFrame t pl)
        (css.map List.length ++ fsched)).2.1 = []) :
    ((run initState (css.flatten ++ mkFrame t pl)
        (css.map List.length ++ fsched)).2.2).filter isCsvRow =
      expectedRows t pl ∧
    (((run initState (css.flatten ++ mkFrame t pl)
        (css.map List.length ++ fsched)).2.2).filter isCsvRow).length =
      1250 := by
  obtain ⟨s', p1, p2, p3, p4, q1, q2, q3⟩ :=
    run_noise css initState (mkFrame t pl) fsched rfl rfl
      initState_length hnoise
  rw [q2] at hconsume
  have hstream : mkFrame t pl = framesStream [(t, pl)] := by
    rw [framesStream_cons, framesStream_nil, List.append_nil]
  have hres := run_frames fsched [(t, pl)] s' (mkFrame t pl)
    (by intro fp hfp; rw [List.mem_singleton] at hfp; subst hfp; exact wf)
    p3 (Or.inl ⟨p1, p2, hstream⟩) hconsume
  have hmain : ((run initState (css.flatten ++ mkFrame t pl)
      (css.map List.length ++ fsched)).2.2).filter isCsvRow =
      expectedRows t pl := by
    rw [q3, hres.1, filter_isCsvRow_framesEvents, List.map_cons,
      List.map_nil, List.flatten_cons, List.flatten_nil, List.append_nil]
  refine ⟨hmain, ?_⟩
  rw [hmain, length_expectedRows]
  rfl

/-- Witness for C4 (amended) at a concrete noise partition. -/
theorem C4_resync_witness :
    wellFormedFrame 5 (List.replicate 1250 2) ∧
    (∀ c ∈ [[(9 : Int)], [(8 : Int), (9 : Int)]],
      c.length ≤ FRAME_TOTAL_INTS ∧ ∀ w ∈ c, w ≠ USB_SOF) ∧
    (run initState
      ([[(9 : Int)], [(8 : Int), (9 : Int)]].flatten ++
        mkFrame 5 (List.replicate 1250 2))
      ([[(9 : Int)], [(8 : Int), (9 : Int)]].map List.length ++
        [FRAME_TOTAL_INTS])).2.1 = [] ∧
    ((run initState
      ([[(9 : Int)], [(8 : Int), (9 : Int)]].flatten ++
        mkFrame 5 (List.replicate 1250 2))
      ([[(9 : Int)], [(8 : Int), (9 : Int)]].map List.length ++
        [FRAME_TOTAL_INTS])).2.2).filter isCsvRow =
      expectedRows 5 (List.replicate 1250 2) := by
  have hwf : wellFormedFrame 5 (List.replicate 1250 2) :=
    wellFormedFrame_replicate 5 2 (by decide) (by decide) (by decide)
      (by decide)
  have hnoise : ∀ c ∈ [[(9 : Int)], [(8 : Int), (9 : Int)]],
      c.length ≤ FRAME_TOTAL_INTS ∧ ∀ w ∈ c, w ≠ USB_SOF := by decide
  have hcons : (run initState
      ([[(9 : Int)], [(8 : Int), (9 : Int)]].flatten ++
        mkFrame 5 (List.replicate 1250 2))
      ([[(9 : Int)], [(8 : Int), (9 : Int)]].map List.length ++
        [FRAME_TOTAL_INTS])).2.1 = [] := by
    obtain ⟨s', p1, p2, p3, p4, q1, q2, q3⟩ :=
      run_noise [[(9 : Int)], [(8 : Int), (9 : Int)]] initState
        (mkFrame 5 (List.replicate 1250 2)) [FRAME_TOTAL_INTS] rfl rfl
        initState_length hnoise
    rw [q2]
    rw [show mkFrame 5 (List.replicate 1250 2) =
      framesStream [((5 : Int), List.replicate 1250 (2 : Int))] from by
        rw [framesStream_cons, framesStream_nil, List.append_nil]]
    exact run_frame_reads [((5 : Int), List.replicate 1250 (2 : Int))] s'
      (by intro fp hfp; rw [List.mem_singleton] at hfp; subst hfp; exact hwf)
      p1 p2 p3
  exact ⟨hwf, hnoise, hcons,
    (C4_resync [[9], [8, 9]] 5 (List.replicate 1250 2) [FRAME_TOTAL_INTS]
      hwf hnoise hcons).1⟩

/-- C5: a stream of N >= 1 well-formed frames with no inter-frame noise, under
every partition into reads that delivers the whole stream, yields exactly
N x 1250 CSV data rows whose sample values match the input payload words in
input order. -/
theorem C5_idempotent_framing (fs : List (Int × List Int)) (sched : List Nat)
    (hN : 1 ≤ fs.length)
    (hwf : ∀ fp ∈ fs, wellFormedFrame fp.1 fp.2)
    (hconsume : (run initState (framesStream fs) sched).2.1 = []) :
    ((run initState (framesStream fs) sched).2.2).filter isCsvRow =
      (fs.map fun fp => expectedRows fp.1 fp.2).flatten ∧
    (((run initState (framesStream fs) sched).2.2).filter isCsvRow).length =
      fs.length * 1250 := by
  have hres := run_frames sched fs initState (framesStream fs) hwf
    initState_length (Or.inl ⟨rfl, rfl, rfl⟩) hconsume
  have hmain : ((run initState (framesStream fs) sched).2.2).filter
      isCsvRow = (fs.map fun fp => expectedRows fp.1 fp.2).flatten := by
    rw [hres.1, filter_isCsvRow_framesEvents]
  refine ⟨hmain, ?_⟩
  rw [hmain, length_flatten_expectedRows]
  rfl

/-- Witness for C5 at a concrete two-frame stream. -/
theorem C5_idempotent_framing_witness :
    1 ≤ ([((5 : Int), List.replicate 1250 (2 : Int)),
      ((105 : Int), List.replicate 1250 (3 : Int))]).length ∧
    (∀ fp ∈ [((5 : Int), List.replicate 1250 (2 : Int)),
      ((105 : Int), List.replicate 1250 (3 : Int))],
        wellFormedFrame fp.1 fp.2) ∧
    (run initState
      (framesStream [((5 : Int), List.replicate 1250 (2 : Int)),
        ((105 : Int), List.replicate 1250 (3 : Int))])
      [FRAME_TOTAL_INTS, FRAME_TOTAL_INTS]).2.1 = [] ∧
    (((run initState
      (framesStream [((5 : Int), List.replicate 1250 (2 : Int)),
        ((105 : Int), List.replicate 1250 (3 : Int))])
      [FRAME_TOTAL_INTS, FRAME_TOTAL_INTS]).2.2).filter isCsvRow).length =
      2 * 1250 := by
  have hwfall : ∀ fp ∈ [((5 : Int), List.replicate 1250 (2 : Int)),
      ((105 : Int), List.replicate 1250 (3 : Int))],
        wellFormedFrame fp.1 fp.2 := by
    intro fp hfp
    rcases List.mem_cons.mp hfp with h | h
    · subst h
      exact wellFormedFrame_replicate 5 2 (by decide) (by decide)
        (by decide) (by decide)
    · rw [List.mem_singleton] at h
      subst h
      exact wellFormedFrame_replicate 105 3 (by decide) (by decide)
        (by decide) (by decide)
  have hcons : (run initState
      (framesStream [((5 : Int), List.replicate 1250 (2 : Int)),
        ((105 : Int), List.replicate 1250 (3 : Int))])
      [FRAME_TOTAL_INTS, FRAME_TOTAL_INTS]).2.1 = [] :=
    run_frame_reads _ initState hwfall rfl rfl initState_length
  exact ⟨by decide, hwfall, hcons,
    (C5_idempotent_framing
      [((5 : Int), List.replicate 1250 (2 : Int)),
        ((105 : Int), List.replicate 1250 (3 : Int))]
      [FRAME_TOTAL_INTS, FRAME_TOTAL_INTS] (by decide) hwfall hcons).2⟩

/-- C6 counterexample: the code encodes "no previous frame" as
`last_frame_timestamp == 0`, so after a frame with timestamp 0, the interval
check for the next frame is silently skipped: two consecutive valid frames
with timestamps 0 and 50 (difference 50, not 100) produce zero
interval-mismatch diagnostics, against the claimed "exactly one". -/
theorem C6_counterexample_zero_timestamp :
    toU32 0 = 0 ∧
    (toU32 50 + 2 ^ 32 - toU32 0) % 2 ^ 32 ≠ 100 ∧
    ((run initState (mkFrame 0 (List.replicate 1250 2) ++
        mkFrame 50 (List.replicate 1250 3))
      [FRAME_TOTAL_INTS, FRAME_TOTAL_INTS]).2.2).count
      Event.warnInterval = 0 ∧
    (run initState (mkFrame 0 (List.replicate 1250 2) ++
        mkFrame 50 (List.replicate 1250 3))
      [FRAME_TOTAL_INTS, FRAME_TOTAL_INTS]).2.1 = [] := by
  have hwfall : ∀ fp ∈ [((0 : Int), List.replicate 1250 (2 : Int)),
      ((50 : Int), List.replicate 1250 (3 : Int))],
        wellFormedFrame fp.1 fp.2 := by
    intro fp hfp
    rcases List.mem_cons.mp hfp with h | h
    · subst h
      exact wellFormedFrame_replicate 0 2 (by decide) (by decide)
        (by decide) (by decide)
    · rw [List.mem_singleton] at h
      subst h
      exact wellFormedFrame_replicate 50 3 (by decide) (by decide)
        (by decide) (by decide)
  have hstream : mkFrame 0 (List.replicate 1250 2) ++
      mkFrame 50 (List.replicate 1250 3) =
      framesStream [((0 : Int), List.replicate 1250 (2 : Int)),
        ((50 : Int), List.replicate 1250 (3 : Int))] := by
    rw [framesStream_cons, framesStream_cons, framesStream_nil,
      List.append_nil]
  have hcons : (run initState (mkFrame 0 (List.replicate 1250 2) ++
      mkFrame 50 (List.replicate 1250 3))
      [FRAME_TOTAL_INTS, FRAME_TOTAL_INTS]).2.1 = [] := by
    rw [hstream]
    exact run_frame_reads _ initState hwfall rfl rfl initState_length
  have hres := run_frames [FRAME_TOTAL_INTS, FRAME_TOTAL_INTS]
    [((0 : Int), List.replicate 1250 (2 : Int)),
      ((50 : Int), List.replicate 1250 (3 : Int))] initState
    (mkFrame 0 (List.replicate 1250 2) ++ mkFrame 50 (List.replicate 1250 3))
    hwfall initState_length (Or.inl ⟨rfl, rfl, hstream⟩) hcons
  refine ⟨by decide, by decide, ?_, hcons⟩
  rw [hres.1, framesEvents_cons, framesEvents_cons, framesEvents_nil]
  rw [List.count_append, List.count_append,
    count_warnInterval_frameEvents, count_warnInterval_frameEvents]
  rw [if_neg (fun h => h.1 rfl), if_neg (fun h => h.1 (by decide))]
  rfl

/-- C6 (amended): two consecutive valid frames whose `uint32` timestamps
differ by other than 100, with the earlier timestamp nonzero (a zero
timestamp is indistinguishable from "no previous frame" and suppresses the
check), produce exactly one interval-mismatch diagnostic; both frames'
samples are still fully emitted, and the retained timestamp is updated to the
second frame's timestamp unconditionally. -/
theorem C6_interval_mismatch (t1 t2 : Int) (pl1 pl2 : List Int)
    (sched : List Nat)
    (wf1 : wellFormedFrame t1 pl1) (wf2 : wellFormedFrame t2 pl2)
    (hne : toU32 t1 ≠ 0)
    (hint : (toU32 t2 + 2 ^ 32 - toU32 t1) % 2 ^ 32 ≠ 100)
    (hconsume : (run initState (mkFrame t1 pl1 ++ mkFrame t2 pl2)
      sched).2.1 = []) :
    ((run initState (mkFrame t1 pl1 ++ mkFrame t2 pl2) sched).2.2).count
        Event.warnInterval = 1 ∧
    ((run initState (mkFrame t1 pl1 ++ mkFrame t2 pl2) sched).2.2).filter
        isCsvRow = expectedRows t1 pl1 ++ expectedRows t2 pl2 ∧
    (run initState (mkFrame t1 pl1 ++ mkFrame t2 pl2)
      sched).1.last_frame_timestamp = toU32 t2 := by
  have hwfall : ∀ fp ∈ [(t1, pl1), (t2, pl2)],
      wellFormedFrame fp.1 fp.2 := by
    intro fp hfp
    rcases List.mem_cons.mp hfp with h | h
    · subst h; exact wf1
    · rw [List.mem_singleton] at h; subst h; exact wf2
  have hstream : mkFrame t1 pl1 ++ mkFrame t2 pl2 =
      framesStream [(t1, pl1), (t2, pl2)] := by
    rw [framesStream_cons, framesStream_cons, framesStream_nil,
      List.append_nil]
  have hres := run_frames sched [(t1, pl1), (t2, pl2)] initState
    (mkFrame t1 pl1 ++ mkFrame t2 pl2) hwfall initState_length
    (Or.inl ⟨rfl, rfl, hstream⟩) hconsume
  refine ⟨?_, ?_, ?_⟩
  · rw [hres.1, framesEvents_cons, framesEvents_cons, framesEvents_nil]
    rw [List.count_append, List.count_append,
      count_warnInterval_frameEvents, count_warnInterval_frameEvents]
    rw [if_neg (fun h => h.1 rfl), if_pos ⟨hne, hint⟩]
    rfl
  · rw [hres.1, filter_isCsvRow_framesEvents, List.map_cons, List.map_cons,
      List.map_nil, List.flatten_cons, List.flatten_cons, List.flatten_nil,
      List.append_nil]
  · rw [hres.2]
    rfl

/-- Witness for C6 (amended) at concrete timestamps 5 and 300. -/
theorem C6_interval_mismatch_witness :
    wellFormedFrame 5 (List.replicate 1250 2) ∧
    wellFormedFrame 300 (List.replicate 1250 3) ∧
    toU32 5 ≠ 0 ∧
    (toU32 300 + 2 ^ 32 - toU32 5) % 2 ^ 32 ≠ 100 ∧
    (run initState (mkFrame 5 (List.replicate 1250 2) ++
      mkFrame 300 (List.replicate 1250 3))
      [FRAME_TOTAL_INTS, FRAME_TOTAL_INTS]).2.1 = [] ∧
    ((run initState (mkFrame 5 (List.replicate 1250 2) ++
      mkFrame 300 (List.replicate 1250 3))
      [FRAME_TOTAL_INTS, FRAME_TOTAL_INTS]).2.2).count
      Event.warnInterval = 1 := by
  have hwf1 : wellFormedFrame 5 (List.replicate 1250 2) :=
    wellFormedFrame_replicate 5 2 (by decide) (by decide) (by decide)
      (by decide)
  have hwf2 : wellFormedFrame 300 (List.replicate 1250 3) :=
    wellFormedFrame_replicate 300 3 (by decide) (by decide) (by decide)
      (by decide)
  have hwfall : ∀ fp ∈ [((5 : Int), List.replicate 1250 (2 : Int)),
      ((300 : Int), List.replicate 1250 (3 : Int))],
        wellFormedFrame fp.1 fp.2 := by
    intro fp hfp
    rcases List.mem_cons.mp hfp with h | h
    · subst h; exact hwf1
    · rw [List.mem_singleton] at h; subst h; exact hwf2
  have hcons : (run initState (mkFrame 5 (List.replicate 1250 2) ++
      mkFrame 300 (List.replicate 1250 3))
      [FRAME_TOTAL_INTS, FRAME_TOTAL_INTS]).2.1 = [] := by
    rw [show mkFrame 5 (List.replicate 1250 2) ++
      mkFrame 300 (List.replicate 1250 3) =
      framesStream [((5 : Int), List.replicate 1250 (2 : Int)),
        ((300 : Int), List.replicate 1250 (3 : Int))] from by
        rw [framesStream_cons, framesStream_cons, framesStream_nil,
          List.append_nil]]
    exact run_frame_reads _ initState hwfall rfl rfl initState_length
  exact ⟨hwf1, hwf2, by decide, by decide, hcons,
    (C6_interval_mismatch 5 300 (List.replicate 1250 2)
      (List.replicate 1250 3) [FRAME_TOTAL_INTS, FRAME_TOTAL_INTS] hwf1 hwf2
      (by decide) (by decide) hcons).1⟩

/-- C7: the CSV output (and the whole run result) is invariant under
inserting or removing zero-length reads anywhere in the schedule, and a
zero-length read changes no synchronizer state and emits nothing (it is never
treated as an error). -/
theorem C7_zero_read_invariance (s : SyncState) (stream : List Int)
    (sched : List Nat) :
    run s stream (sched.filter fun k => decide (k ≠ 0)) =
      run s stream sched ∧
    stepChunk s [] = (s, []) := by
  constructor
  · induction sched generalizing s stream with
    | nil => rfl
    | cons k rest ih =>
      by_cases hk : k = 0
      · subst hk
        have h1 : ((0 : Nat) :: rest).filter (fun k => decide (k ≠ 0)) =
            rest.filter (fun k => decide (k ≠ 0)) := by simp
        have h2 : run s stream ((0 : Nat) :: rest) = run s stream rest := by
          simp only [run, Nat.zero_min, List.take_zero, stepChunk_nil,
            List.drop_zero, List.nil_append]
        rw [h1, ih s stream, h2]
      · have h1 : (k :: rest).filter (fun k => decide (k ≠ 0)) =
            k :: rest.filter (fun k => decide (k ≠ 0)) := by simp [hk]
        rw [h1]
        simp only [run]
        rw [ih]
  · rfl

/-- C8: whenever the `EOF` sentinel is seen as the last word of a read while
accumulating, at a fill position whose completed length differs from 1253, a
length-mismatch warning is emitted and the frame is nonetheless accepted:
1250 CSV rows are emitted from the buffer and the synchronizer resets to the
searching state; the stream is not aborted. -/
theorem C8_length_mismatch_accepted (s : SyncState) (chunk : List Int)
    (hst : s.state = STATE_t.STATE_FIND_EOF)
    (hn : 1 ≤ chunk.length)
    (heof : (writeChunk s.frame_buff s.pos chunk).getD
      (s.pos + chunk.length - 1) 0 = USB_EOF_I32)
    (hmis : s.pos + chunk.length ≠ FRAME_TOTAL_INTS) :
    (stepChunk s chunk).1.state = STATE_t.STATE_FIND_SOF ∧
    (stepChunk s chunk).1.pos = 0 ∧
    Event.warnFrameSize ∈ (stepChunk s chunk).2 ∧
    ((stepChunk s chunk).2.filter isCsvRow).length = N_FRAME_DATA := by
  obtain ⟨buf, pos, st, last⟩ := s
  simp only at hst heof hmis ⊢
  subst hst
  have hstep : stepChunk ⟨buf, pos, STATE_t.STATE_FIND_EOF, last⟩ chunk =
      (⟨writeChunk buf pos chunk, 0, STATE_t.STATE_FIND_SOF,
        (emitFrame (writeChunk buf pos chunk) (pos + chunk.length - 1)
          last).2⟩,
       (emitFrame (writeChunk buf pos chunk) (pos + chunk.length - 1)
         last).1) := by
    simp only [stepChunk]
    rw [if_neg (by omega)]
    simp only [findEOFBody]
    rw [if_neg (not_not_intro heof)]
  rw [hstep]
  have hemit : (emitFrame (writeChunk buf pos chunk)
      (pos + chunk.length - 1) last).1 =
      [Event.warnFrameSize] ++
        (if last ≠ 0 ∧
            (toU32 ((writeChunk buf pos chunk).getD 1 0) + 2 ^ 32 - last) %
                (2 ^ 32) ≠ FRAME_INTERVAL
          then [Event.warnInterval] else []) ++
        printData (writeChunk buf pos chunk)
          (toU32 ((writeChunk buf pos chunk).getD 1 0) * 1000 % (2 ^ 32)) 2
          N_FRAME_DATA := by
    simp only [emitFrame]
    rw [if_pos (show pos + chunk.length - 1 + 1 ≠ FRAME_TOTAL_INTS from by
      omega)]
  refine ⟨rfl, rfl, ?_, ?_⟩
  · show Event.warnFrameSize ∈ (emitFrame (writeChunk buf pos chunk)
      (pos + chunk.length - 1) last).1
    rw [hemit]
    simp
  · show (((emitFrame (writeChunk buf pos chunk)
      (pos + chunk.length - 1) last).1).filter isCsvRow).length =
        N_FRAME_DATA
    rw [hemit, List.filter_append, List.filter_append,
      filter_isCsvRow_printData]
    have h1 : ([Event.warnFrameSize] : List Event).filter isCsvRow = [] :=
      rfl
    have h2 : (if last ≠ 0 ∧
        (toU32 ((writeChunk buf pos chunk).getD 1 0) + 2 ^ 32 - last) %
            (2 ^ 32) ≠ FRAME_INTERVAL
        then [Event.warnInterval] else ([] : List Event)).filter isCsvRow
        = [] := by
      split
      · rfl
      · rfl
    rw [h1, h2]
    rw [List.nil_append, List.nil_append, printData_length]

/-- Witness for C8: `EOF` arriving at fill position 5 (completed length 6). -/
theorem C8_length_mismatch_accepted_witness :
    (⟨List.replicate 1253 0, 5, STATE_t.STATE_FIND_EOF, 0⟩ :
      SyncState).state = STATE_t.STATE_FIND_EOF ∧
    1 ≤ ([USB_EOF_I32] : List Int).length ∧
    (writeChunk (List.replicate 1253 0) 5 [USB_EOF_I32]).getD
      (5 + ([USB_EOF_I32] : List Int).length - 1) 0 = USB_EOF_I32 ∧
    5 + ([USB_EOF_I32] : List Int).length ≠ FRAME_TOTAL_INTS ∧
    Event.warnFrameSize ∈
      (stepChunk ⟨List.replicate 1253 0, 5, STATE_t.STATE_FIND_EOF, 0⟩
        [USB_EOF_I32]).2 ∧
    ((stepChunk ⟨List.replicate 1253 0, 5, STATE_t.STATE_FIND_EOF, 0⟩
        [USB_EOF_I32]).2.filter isCsvRow).length = N_FRAME_DATA := by
  have hlt : ((List.replicate 1253 (0 : Int)).take 5).length = 5 := by
    rw [List.length_take, List.length_replicate]
    decide
  have hl2 : ((List.replicate 1253 (0 : Int)).take 5 ++
      [USB_EOF_I32]).length = 6 := by
    rw [List.length_append, hlt]
    rfl
  have hg : (writeChunk (List.replicate 1253 0) 5 [USB_EOF_I32]).getD
      (5 + ([USB_EOF_I32] : List Int).length - 1) 0 = USB_EOF_I32 := by
    show (writeChunk (List.replicate 1253 0) 5 [USB_EOF_I32]).getD 5 0 =
      USB_EOF_I32
    have hgd : (writeChunk (List.replicate 1253 0) 5 [USB_EOF_I32]).getD 5
        0 = ((List.replicate 1253 (0 : Int)).take 5 ++ [USB_EOF_I32]).getD 5
          0 := by
      apply getD_eq_of_take_eq (m := 6)
      · have htw := take_writeChunk (List.replicate 1253 0) [USB_EOF_I32] 5
          (by rw [List.length_replicate]; omega)
        rw [show (5 : Nat) + ([USB_EOF_I32] : List Int).length = 6
          from rfl] at htw
        rw [htw, List.take_of_length_le (le_of_eq hl2)]
      · omega
    rw [hgd, List.getD_append_right _ _ _ _ (le_of_eq hlt), hlt]
    rfl
  exact ⟨rfl, by decide, hg, by decide,
    (C8_length_mismatch_accepted
      ⟨List.replicate 1253 0, 5, STATE_t.STATE_FIND_EOF, 0⟩ [USB_EOF_I32]
      rfl (by decide) hg (by decide)).2.2.1,
    (C8_length_mismatch_accepted
      ⟨List.replicate 1253 0, 5, STATE_t.STATE_FIND_EOF, 0⟩ [USB_EOF_I32]
      rfl (by decide) hg (by decide)).2.2.2⟩

/-- C9 counterexample: the signal handler exits with `128 + sig` (130 for
`SIGINT`), not with success status 0 as the claim states. -/
theorem C9_counterexample_exit_status :
    (handle_signal 2 true).code = 130 ∧ (handle_signal 2 true).code ≠ 0 :=
  ⟨rfl, by decide⟩

/-- C9 (amended): on an interrupt or terminate signal the handler flushes and
closes the open CSV sink before exiting, and the process exits with the
signal-derived status `128 + sig` (nonzero), not 0. -/
theorem C9_signal_flush_close (sig : Nat) :
    (handle_signal sig true).flushed = true ∧
    (handle_signal sig true).closed = true ∧
    (handle_signal sig true).code = 128 + sig :=
  ⟨rfl, rfl, rfl⟩

/-- C10: at the start of every iteration the fill offset lies in [0, 1253]
and the buffer keeps its 1253-word length (no read ever writes outside it,
since each read delivers at most the requested `1253 - offset` words); once
the offset reaches 1253, every subsequent read requests 0 bytes and the loop
makes no further progress. -/
theorem C10_fill_offset_invariant (s : SyncState) (stream : List Int)
    (sched : List Nat) (hpos : s.pos ≤ FRAME_TOTAL_INTS)
    (hbuf : s.frame_buff.length = FRAME_TOTAL_INTS) :
    ((run s stream sched).1.pos ≤ FRAME_TOTAL_INTS ∧
      (run s stream sched).1.frame_buff.length = FRAME_TOTAL_INTS) ∧
    (∀ k, min k (min (FRAME_TOTAL_INTS - s.pos) stream.length) ≤
      FRAME_TOTAL_INTS - s.pos) ∧
    (s.pos = FRAME_TOTAL_INTS → run s stream sched = (s, stream, [])) := by
  refine ⟨run_inv sched s stream hpos hbuf, ?_, ?_⟩
  · intro k
    exact le_trans (Nat.min_le_right _ _) (Nat.min_le_left _ _)
  · intro h
    exact run_stuck sched s stream h

/-- Witness for C10 at a concrete run. -/
theorem C10_fill_offset_invariant_witness :
    initState.pos ≤ FRAME_TOTAL_INTS ∧
    initState.frame_buff.length = FRAME_TOTAL_INTS ∧
    ((run initState [5] [3]).1.pos ≤ FRAME_TOTAL_INTS ∧
      (run initState [5] [3]).1.frame_buff.length = FRAME_TOTAL_INTS) :=
  ⟨by decide, initState_length,
    (C10_fill_offset_invariant initState [5] [3] (by decide)
      initState_length).1⟩

end ReadCdc
